import Mathlib

/-!
# ReTrueque chat core: a shallow embedding of `backend/index.js` and `frontend/js/main.js`

The chat endpoints of `src/backend/index.js` are embedded as pure functions
that take the database contents (`Store`) and return a response together with
the new contents. The chat code of `src/frontend/js/main.js` is embedded as
functions on the state of the page (`Client`), further down.

Modelling conventions:

* a request-body field is a `JsVal`: absent, `null`, a Boolean, a number with an
  integer value, or a string (non-integer numbers, arrays and objects are not
  covered);
* identifiers are mathematical integers (the 32-bit range of the column type
  and the rounding of JavaScript numbers above `2^53` are not modelled);
* the clock is an explicit argument, one reading per database write;
* a query without `orderBy` returns rows in insertion order, and `orderBy`
  is a stable sort of the rows in insertion order;
* a `NaN` handed to Prisma reaches the database as `null` (the query is sent as
  JSON): on the optional column `itemId` it is the value `null`, on a required
  column the query is refused.
-/

namespace ReTrueque

/-! ## JavaScript values and `parseInt` -/

/-- A field of a JSON request body, as seen by the handler. -/
inductive JsVal where
  | undefined
  | null
  | bool (b : Bool)
  | num (n : Int)
  | str (s : String)
  deriving DecidableEq, Repr

/-- Code points removed by `parseInt` before it reads the sign: the ECMAScript
`WhiteSpace` and `LineTerminator` productions. -/
def isJsWhiteSpace (c : Char) : Bool :=
  let n := c.toNat
  n == 0x09 || n == 0x0A || n == 0x0B || n == 0x0C || n == 0x0D || n == 0x20 ||
  n == 0xA0 || n == 0x1680 || (0x2000 ≤ n && n ≤ 0x200A) || n == 0x2028 ||
  n == 0x2029 || n == 0x202F || n == 0x205F || n == 0x3000 || n == 0xFEFF

/-- Value of a character as a digit of the given radix (10 or 16), if it is one. -/
def digitValue (radix : Nat) (c : Char) : Option Nat :=
  let n := c.toNat
  if 48 ≤ n ∧ n ≤ 57 then some (n - 48)
  else if radix = 16 ∧ 97 ≤ n ∧ n ≤ 102 then some (n - 87)
  else if radix = 16 ∧ 65 ≤ n ∧ n ≤ 70 then some (n - 55)
  else none

/-- The longest prefix of digits of the given radix, as digit values. -/
def takeDigits (radix : Nat) : List Char → List Nat
  | [] => []
  | c :: cs =>
    match digitValue radix c with
    | some d => d :: takeDigits radix cs
    | none => []

/-- Mathematical value of a digit sequence, most significant digit first. -/
def digitsValue (radix : Nat) (ds : List Nat) : Nat :=
  ds.foldl (fun acc d => acc * radix + d) 0

/-- Steps 6 to 12 of `parseInt` with no radix argument: an optional `0x`/`0X`
prefix selects radix 16, then the digit prefix is read; `none` is `NaN`. -/
def parseDigits (cs : List Char) : Option Nat :=
  match cs with
  | '0' :: 'x' :: rest | '0' :: 'X' :: rest =>
    match takeDigits 16 rest with
    | [] => none
    | ds => some (digitsValue 16 ds)
  | _ =>
    match takeDigits 10 cs with
    | [] => none
    | ds => some (digitsValue 10 ds)

/-- The `parseInt(string)` of ECMAScript on a list of characters: leading white
space is dropped, one sign is read, then `parseDigits`; `none` is `NaN`. -/
def parseIntChars (cs : List Char) : Option Int :=
  match cs.dropWhile isJsWhiteSpace with
  | '-' :: rest => (parseDigits rest).map (fun n => -(n : Int))
  | '+' :: rest => (parseDigits rest).map (fun n => (n : Int))
  | rest => (parseDigits rest).map (fun n => (n : Int))

/-- Decimal digits of a natural number, most significant first. -/
def natDigits (n : Nat) : List Char := (Nat.toDigits 10 n)

/-- The `ToString` of ECMAScript on the modelled values. -/
def JsVal.toJsString : JsVal → List Char
  | .undefined => "undefined".toList
  | .null => "null".toList
  | .bool true => "true".toList
  | .bool false => "false".toList
  | .num (Int.ofNat n) => natDigits n
  | .num (Int.negSucc n) => '-' :: natDigits (n + 1)
  | .str s => s.toList

/-- The function `parseInt(v)` as the handlers call it (one argument). -/
def parseInt (v : JsVal) : Option Int := parseIntChars v.toJsString

/-- The function `isNaN` on a `parseInt` result. -/
def isNaN (r : Option Int) : Bool := r.isNone

/-- Truthiness of a value, as tested by `req.body.itemId ? ... : ...`. -/
def JsVal.truthy : JsVal → Bool
  | .undefined => false
  | .null => false
  | .bool b => b
  | .num n => n != 0
  | .str s => s.toList != []

/-! ## The chat store -/

/-- A row of the `chat` table, with the columns the handlers read or write.
Modelled from the spec: the Prisma schema is not part of the sources; the
columns are the ones named in `index.js`, `itemId` is optional and `updatedAt`
is the `lastActivity` of the data model, set when the row is created. -/
structure Chat where
  id : Int
  userAId : Int
  userBId : Int
  itemId : Option Int
  updatedAt : Nat
  deriving DecidableEq, Repr

/-- A row of the `message` table. Modelled from the spec: the Prisma schema is
not part of the sources; `createdAt` is the creation timestamp of the data
model, set by the database when the row is created. -/
structure Message where
  id : Int
  chatId : Int
  senderId : Int
  content : String
  createdAt : Nat
  deriving DecidableEq, Repr

/-- Contents of the database. `users` and `items` are the identifiers present in
the tables of the external User and Item collaborators, which the `userA`,
`userB`, `item` and `sender` relations of the handlers refer to; `nextChatId`
and `nextMessageId` are the auto-increment counters. -/
structure Store where
  users : List Int
  items : List Int
  chats : List Chat
  messages : List Message
  nextChatId : Int
  nextMessageId : Int
  deriving DecidableEq, Repr

/-- The store with the given users and items and no conversation or message. -/
def Store.init (users items : List Int) : Store :=
  { users := users, items := items, chats := [], messages := [],
    nextChatId := 1, nextMessageId := 1 }

/-- What a handler sends back: `res.json(body)` or
`res.status(status).json(\x7b error \x7d)`. -/
inductive Response (α : Type) where
  | json (body : α)
  | error (status : Nat) (error : String)
  deriving DecidableEq, Repr

/-! ## POST /api/chats (the spec's `resolveOrCreate`) -/

/-- Body of `POST /api/chats`. -/
structure ChatBody where
  userAId : JsVal
  userBId : JsVal
  itemId : JsVal
  deriving DecidableEq, Repr

/-- Value of the local `itemId` of the handler: `undefined`, `NaN` or an
integer. -/
inductive ItemArg where
  | undefined
  | nan
  | id (i : Int)
  deriving DecidableEq, Repr

/-- The expression `req.body.itemId ? parseInt(req.body.itemId) : undefined`. -/
def itemArg (v : JsVal) : ItemArg :=
  if v.truthy then
    match parseInt v with
    | some i => .id i
    | none => .nan
  else .undefined

/-- The `where` clause of `prisma.chat.findFirst` in `POST /api/chats`. A field
whose value is `undefined` is left out of the filter by Prisma, so an absent
item puts no condition on `itemId`. -/
def chatWhere (userAId userBId : Int) (itemId : Option Int) (c : Chat) : Bool :=
  (c.userAId == userAId || c.userAId == userBId) &&
  (c.userBId == userAId || c.userBId == userBId) &&
  (match itemId with
   | none => true
   | some i => c.itemId == some i)

/-- The row that `prisma.chat.create` inserts for
`data: \x7b userAId, userBId, itemId \x7d`: the next identifier, the participants
in the order given, an `undefined` item stored as `null`, and the current time. -/
def newChat (s : Store) (userAId userBId : Int) (itemId : Option Int) (now : Nat) : Chat :=
  { id := s.nextChatId, userAId := userAId, userBId := userBId, itemId := itemId,
    updatedAt := now }

/-- The store with one more chat row. -/
def withChat (s : Store) (chat : Chat) : Store :=
  { s with chats := s.chats ++ [chat], nextChatId := s.nextChatId + 1 }

/-- The call `prisma.chat.create` of `POST /api/chats`: the row is refused when
a referenced user or item does not exist. -/
def createChat (s : Store) (userAId userBId : Int) (itemId : Option Int) (now : Nat) :
    Option (Chat × Store) :=
  if userAId ∈ s.users ∧ userBId ∈ s.users ∧ (∀ i ∈ itemId, i ∈ s.items) then
    some (newChat s userAId userBId itemId now,
      withChat s (newChat s userAId userBId itemId now))
  else none

/-- Lookup and creation of `POST /api/chats` once the identifiers are numbers. -/
def findOrCreateChat (s : Store) (userAId userBId : Int) (itemId : Option Int) (now : Nat) :
    Response Chat × Store :=
  match s.chats.find? (chatWhere userAId userBId itemId) with
  | some chat => (.json chat, s)
  | none =>
    match createChat s userAId userBId itemId now with
    | some (chat, s') => (.json chat, s')
    | none => (.error 500 "Error creating/getting chat", s)

/-- The `where` clause of `prisma.chat.findFirst` when the local `itemId` is
`NaN`: the handler has no guard on `itemId`, and Prisma sends the query as
JSON, in which `NaN` is `null`, so the filter asks for rows whose `itemId` is
`null`. -/
def chatWhereNull (userAId userBId : Int) (c : Chat) : Bool :=
  (c.userAId == userAId || c.userAId == userBId) &&
  (c.userBId == userAId || c.userBId == userBId) &&
  c.itemId == none

/-- Lookup and creation of `POST /api/chats` when the local `itemId` is `NaN`:
the lookup asks for a row without item, and the row created has `itemId`
`null`. -/
def findOrCreateChatNull (s : Store) (userAId userBId : Int) (now : Nat) :
    Response Chat × Store :=
  match s.chats.find? (chatWhereNull userAId userBId) with
  | some chat => (.json chat, s)
  | none =>
    match createChat s userAId userBId none now with
    | some (chat, s') => (.json chat, s')
    | none => (.error 500 "Error creating/getting chat", s)

/-- The handler of `POST /api/chats`. Only `userAId` and `userBId` are tested
with `isNaN`; an `itemId` that is truthy and not numeric goes to the lookup
and to the creation as `NaN`. -/
def postChats (s : Store) (body : ChatBody) (now : Nat) : Response Chat × Store :=
  match parseInt body.userAId, parseInt body.userBId with
  | some userAId, some userBId =>
    match itemArg body.itemId with
    | .undefined => findOrCreateChat s userAId userBId none now
    | .id i => findOrCreateChat s userAId userBId (some i) now
    | .nan => findOrCreateChatNull s userAId userBId now
  | _, _ => (.error 400 "Invalid user IDs", s)

/-! ## POST /api/messages (the spec's `appendMessage`) -/

/-- Body of `POST /api/messages`. -/
structure MessageBody where
  chatId : JsVal
  senderId : JsVal
  content : JsVal
  deriving DecidableEq, Repr

/-- The row that `prisma.message.create` inserts for
`data: \x7b chatId, senderId, content \x7d`: the next identifier and the
current time. -/
def newMessage (s : Store) (chatId senderId : Int) (content : String) (now : Nat) : Message :=
  { id := s.nextMessageId, chatId := chatId, senderId := senderId, content := content,
    createdAt := now }

/-- The store with one more message row. -/
def withMessage (s : Store) (message : Message) : Store :=
  { s with messages := s.messages ++ [message], nextMessageId := s.nextMessageId + 1 }

/-- The call `prisma.message.create`: the fields are passed as received, so the
query is refused unless both identifiers are numbers and the content is a
string, and the row is refused unless the chat and the sender exist. -/
def createMessage (s : Store) (body : MessageBody) (now : Nat) : Option (Message × Store) :=
  match body.chatId, body.senderId, body.content with
  | .num chatId, .num senderId, .str content =>
    if (s.chats.any fun c => c.id == chatId) ∧ senderId ∈ s.users then
      some (newMessage s chatId senderId content now,
        withMessage s (newMessage s chatId senderId content now))
    else none
  | _, _, _ => none

/-- The rows of the chat table after `updatedAt` of the row with the given id
has been set. -/
def touchedChats (chats : List Chat) (chatId : Int) (now : Nat) : List Chat :=
  chats.map fun c => if c.id == chatId then { c with updatedAt := now } else c

/-- The call `prisma.chat.update` with `where: \x7b id \x7d` and
`data: \x7b updatedAt: new Date() \x7d`; it throws when no row has the id. -/
def touchChat (s : Store) (chatId : Int) (now : Nat) : Option Store :=
  if s.chats.any fun c => c.id == chatId then
    some { s with chats := touchedChats s.chats chatId now }
  else none

/-- The handler of `POST /api/messages`; `tMsg` is the clock when the message
row is written and `tUpd` the `new Date()` of the chat update. -/
def postMessages (s : Store) (body : MessageBody) (tMsg tUpd : Nat) :
    Response Message × Store :=
  match createMessage s body tMsg with
  | none => (.error 500 "Error sending message", s)
  | some (message, s1) =>
    match touchChat s1 message.chatId tUpd with
    | some s2 => (.json message, s2)
    | none => (.error 500 "Error sending message", s1)

/-- The store after both writes of `POST /api/messages` have been made. -/
def afterSend (s : Store) (message : Message) (tUpd : Nat) : Store :=
  { withMessage s message with chats := touchedChats s.chats message.chatId tUpd }

/-! ## GET /api/chats/messages/:chatId (the spec's `listMessages`) -/

/-- Rows of `prisma.message.findMany` with `where: \x7b chatId \x7d` and
`orderBy: \x7b createdAt: 'asc' \x7d` (the joined sender name and avatar are left
out). -/
def messagesOfChat (s : Store) (chatId : Int) : List Message :=
  (s.messages.filter fun m => m.chatId == chatId).insertionSort
    fun m n => m.createdAt ≤ n.createdAt

/-- The handler of `GET /api/chats/messages/:chatId`; a `NaN` id is `null` on
the required column `chatId`, and the query throws. -/
def getChatMessages (s : Store) (chatId : String) : Response (List Message) :=
  match parseInt (.str chatId) with
  | some id => .json (messagesOfChat s id)
  | none => .error 500 "Error fetching messages"

/-! ## GET /api/chats/:userId (the spec's `listForUser`) -/

/-- An element of the answer of `GET /api/chats/:userId`: the chat row with its
included `messages` (the joined `item`, `userA` and `userB` rows are left
out). -/
structure ChatSummary where
  chat : Chat
  messages : List Message
  deriving DecidableEq, Repr

/-- The `messages` relation included with `orderBy: \x7b createdAt: 'desc' \x7d`
and `take: 1`. -/
def lastMessages (s : Store) (chatId : Int) : List Message :=
  ((s.messages.filter fun m => m.chatId == chatId).insertionSort
    fun m n => n.createdAt ≤ m.createdAt).take 1

/-- Rows of `prisma.chat.findMany` in `GET /api/chats/:userId`. -/
def chatsOfUser (s : Store) (userId : Int) : List ChatSummary :=
  ((s.chats.filter fun c => c.userAId == userId || c.userBId == userId).insertionSort
    fun c d => d.updatedAt ≤ c.updatedAt).map
    fun c => { chat := c, messages := lastMessages s c.id }

/-- The handler of `GET /api/chats/:userId`; a `NaN` id is `null` on the
required columns `userAId` and `userBId`, and the query throws. -/
def getChats (s : Store) (userId : String) : Response (List ChatSummary) :=
  match parseInt (.str userId) with
  | some id => .json (chatsOfUser s id)
  | none => .error 500 "Error fetching chats"

/-! ## Sequences of requests -/

/-- A write request together with the clock readings of its handler. -/
inductive Request where
  | chats (body : ChatBody) (now : Nat)
  | messages (body : MessageBody) (tMsg tUpd : Nat)
  deriving DecidableEq, Repr

/-- The store after a request has been handled. -/
def handle (s : Store) : Request → Store
  | .chats body now => (postChats s body now).2
  | .messages body tMsg tUpd => (postMessages s body tMsg tUpd).2

/-- The store after a sequence of requests handled one after the other. -/
def run (s : Store) (reqs : List Request) : Store := reqs.foldl handle s

/-! ## A sample store -/

/-- A store with three users, one item, two chats and one message. -/
def sampleStore : Store :=
  { users := [1, 2, 3], items := [42],
    chats := [{ id := 1, userAId := 1, userBId := 2, itemId := some 42, updatedAt := 15 },
              { id := 2, userAId := 3, userBId := 1, itemId := none, updatedAt := 12 }],
    messages := [{ id := 1, chatId := 1, senderId := 1, content := "hola", createdAt := 15 }],
    nextChatId := 3, nextMessageId := 2 }

/-! ## Keys of conversations -/

/-- The participants of a chat as an unordered pair. -/
def Chat.pair (c : Chat) : Finset Int := {c.userAId, c.userBId}

/-- Two chats have the same unordered pair of participants and the same
subject item, an absent item being a value of its own. -/
def Chat.sameKey (c d : Chat) : Prop := c.pair = d.pair ∧ c.itemId = d.itemId

/-- No two rows of the chat table have the same key. -/
def Store.uniqueChats (s : Store) : Prop := s.chats.Pairwise fun c d => ¬ c.sameKey d

/-! ## Well-formed identifiers in the words of the specification -/

/-- A decimal digit. -/
def isDecimalDigit (c : Char) : Bool := 48 ≤ c.toNat && c.toNat ≤ 57

/-- The decimal representation of an integer: an optional minus sign followed
by one or more decimal digits and nothing else. -/
def specDecimalInteger (cs : List Char) : Bool :=
  match cs with
  | '-' :: rest => rest != [] && rest.all isDecimalDigit
  | _ => cs != [] && cs.all isDecimalDigit

/-- A participant identity that is neither missing nor malformed, in the words
of the specification: a number, or a string that is the decimal
representation of an integer. -/
def specWellFormedId : JsVal → Bool
  | .num _ => true
  | .str s => specDecimalInteger s.toList
  | _ => false

/-! ## The orders of the two listings -/

instance : IsTotal Message (fun m n => m.createdAt ≤ n.createdAt) :=
  ⟨fun a b => Nat.le_total a.createdAt b.createdAt⟩

instance : IsTrans Message (fun m n => m.createdAt ≤ n.createdAt) :=
  ⟨fun _ _ _ h1 h2 => Nat.le_trans h1 h2⟩

instance : IsTotal Chat (fun c d => d.updatedAt ≤ c.updatedAt) :=
  ⟨fun a b => Nat.le_total b.updatedAt a.updatedAt⟩

instance : IsTrans Chat (fun c d => d.updatedAt ≤ c.updatedAt) :=
  ⟨fun _ _ _ h1 h2 => Nat.le_trans h2 h1⟩

/-! ## The two writes of POST /api/messages, one after the other -/

/-- The stores that a request handled in the meantime can read while
`POST /api/messages` runs: the store before `prisma.message.create`, the store
between the two awaited writes, and the store after `prisma.chat.update`. -/
def postMessagesStates (s : Store) (body : MessageBody) (tMsg tUpd : Nat) : List Store :=
  match createMessage s body tMsg with
  | none => [s]
  | some (message, s1) =>
    match touchChat s1 message.chatId tUpd with
    | some s2 => [s, s1, s2]
    | none => [s, s1]

/-- No conversation contains a message created later than the conversation's
`updatedAt`. -/
def Store.upToDate (s : Store) : Bool :=
  s.messages.all fun m => s.chats.all fun c => c.id != m.chatId || decide (m.createdAt ≤ c.updatedAt)

/-! ## Two handlers of POST /api/chats at the same time -/

/-- Progress of one handler of `POST /api/chats` whose identifiers were read as
numbers: before its awaited `findFirst`, before its awaited `create` (the
`findFirst` found no row), or answered. The server runs the code between two
`await`s without interruption, so these are the points where another handler
can run. -/
inductive ChatHandler where
  | lookup (userAId userBId : Int) (itemId : Option Int) (now : Nat)
  | create (userAId userBId : Int) (itemId : Option Int) (now : Nat)
  | answered (r : Response Chat)
  deriving DecidableEq, Repr

/-- One awaited database call of a handler, with the code that follows it up to
the next `await` or the answer. -/
def ChatHandler.step (s : Store) : ChatHandler → ChatHandler × Store
  | .lookup a b i t =>
    match s.chats.find? (chatWhere a b i) with
    | some chat => (.answered (.json chat), s)
    | none => (.create a b i t, s)
  | .create a b i t =>
    match createChat s a b i t with
    | some (chat, s') => (.answered (.json chat), s')
    | none => (.answered (.error 500 "Error creating/getting chat"), s)
  | .answered r => (.answered r, s)

/-- Two handlers run under a schedule: each entry tells which handler makes its
next step (`false` the first handler, `true` the second). -/
def runTwo (s : Store) (h1 h2 : ChatHandler) : List Bool → ChatHandler × ChatHandler × Store
  | [] => (h1, h2, s)
  | false :: rest => runTwo (h1.step s).2 (h1.step s).1 h2 rest
  | true :: rest => runTwo (h2.step s).2 h1 (h2.step s).1 rest

/-- The last-message text that `loadUserChats` shows for a conversation:
`chat.messages[0] ? chat.messages[0].content : 'Inicio del chat'`. -/
def lastMsg (chat : ChatSummary) : String :=
  match chat.messages[0]? with
  | some m => m.content
  | none => "Inicio del chat"

instance : IsTotal Message (fun m n => n.createdAt ≤ m.createdAt) :=
  ⟨fun a b => Nat.le_total b.createdAt a.createdAt⟩

instance : IsTrans Message (fun m n => n.createdAt ≤ m.createdAt) :=
  ⟨fun _ _ _ h1 h2 => Nat.le_trans h2 h1⟩

/-! ## The client: `frontend/js/main.js`

The chat part of the page script is embedded as functions on the fields of
`state` that it uses, together with the interval timers of the window, the
message-history requests in flight and what the script has put on the page.
The elements that the script looks up by id are taken to exist, the 300 ms
delay with which `closeModal` hides a modal is not modelled, and `setInterval`
returns handles 1, 2, 3, ... (a browser returns integers greater than zero).
An `await` is a point where other callbacks run: each asynchronous function is
split into the part before its `fetch` and the part after the reply. -/

/-- How `renderMessages` shows the content of a message. -/
inductive ContentKind where
  | image
  | link
  | text
  deriving DecidableEq, Repr

/-- The test `s.startsWith(p)` on lists of characters. -/
def startsWith : List Char → List Char → Bool
  | _, [] => true
  | [], _ :: _ => false
  | c :: cs, p :: ps => c == p && startsWith cs ps

/-- The alternatives of the group `(jpg|jpeg|png|gif|webp)`. -/
def imageExtensions : List (List Char) :=
  ["jpg".toList, "jpeg".toList, "png".toList, "gif".toList, "webp".toList]

/-- Match of a lower-case literal at the start of the input under the flag
`i`; the result is the input that follows the match. -/
def matchIgnoreCase : List Char → List Char → Option (List Char)
  | [], cs => some cs
  | _ :: _, [] => none
  | p :: ps, c :: cs => if c.toLower == p then matchIgnoreCase ps cs else none

/-- Match of `/\.(jpg|jpeg|png|gif|webp)($|\?)/i` that starts at the first
character of the input. -/
def matchesHere (cs : List Char) : Bool :=
  match cs with
  | '.' :: rest =>
    imageExtensions.any fun e =>
      match matchIgnoreCase e rest with
      | some [] => true
      | some ('?' :: _) => true
      | _ => false
  | _ => false

/-- The function `isImageUrl`: `RegExp.test` looks for a match that starts at
any position of the input. -/
def isImageUrl (url : List Char) : Bool := url.tails.any matchesHere

/-- The classification of a message content made by `renderMessages`. -/
def contentKind (content : String) : ContentKind :=
  if startsWith content.toList "http".toList && isImageUrl content.toList then .image
  else if startsWith content.toList "http".toList then .link
  else .text

/-- An image link in the words of the specification: the content starts with
`http` and contains a dot, one of the five extensions in any letter case, and
then either nothing more or a question mark. -/
def specImageLink (cs : List Char) : Prop :=
  startsWith cs "http".toList = true ∧
  ∃ pre ext post, cs = pre ++ '.' :: (ext ++ post) ∧
    ext.map Char.toLower ∈ imageExtensions ∧ (post = [] ∨ ∃ r, post = '?' :: r)

/-- A message as `renderMessages` shows it. -/
structure Bubble where
  mine : Bool
  kind : ContentKind
  content : String
  createdAt : Nat
  deriving DecidableEq, Repr

/-- A timer started by `setInterval(() => loadMessages(chatId), 1000)`. -/
structure IntervalTimer where
  handle : Nat
  chatId : JsVal
  period : Nat
  deriving DecidableEq, Repr

/-- The fields of `state` that the chat code uses, and the part of the browser
it acts on. `user` is `state.user.id` (`none` when `state.user` is `null`);
`timers` are the active interval timers; `fetches` are the chat ids of the
message-history requests in flight, oldest first; `rendered` is the content
of the message container; `openModals` are the modals shown; `toasts` are the
notifications shown so far. -/
structure Client where
  isLoggedIn : Bool
  user : Option JsVal
  currentChatId : JsVal
  chatPollInterval : Option Nat
  timers : List IntervalTimer
  nextHandle : Nat
  fetches : List JsVal
  rendered : List Bubble
  openModals : List String
  toasts : List (String × String)
  deriving DecidableEq, Repr

/-- The state when the script has run, for a guest (`none`) or a saved session
of the user with the given id. -/
def Client.init (user : Option JsVal) : Client :=
  { isLoggedIn := user.isSome, user := user, currentChatId := .null, chatPollInterval := none,
    timers := [], nextHandle := 1, fetches := [], rendered := [], openModals := [],
    toasts := [] }

/-- The function `showToast(message, type)`. -/
def showToast (st : Client) (message type : String) : Client :=
  { st with toasts := st.toasts ++ [(message, type)] }

/-- The function `openModal(id)`. -/
def openModal (st : Client) (id : String) : Client :=
  if id ∈ st.openModals then st else { st with openModals := st.openModals ++ [id] }

/-- The function declaration `closeModal(id)` (lines 533 to 540): it hides
the modal and touches no field of `state`. -/
def closeModal (st : Client) (id : String) : Client :=
  { st with openModals := st.openModals.filter fun m => m != id }

/-- The call `clearInterval(handle)`. -/
def clearInterval (st : Client) (handle : Nat) : Client :=
  { st with timers := st.timers.filter fun t => t.handle != handle }

/-- The wrapper assigned to `window.closeModal` at lines 498 to 505, for a
given value of `originalCloseModal` (`none` when `window.closeModal` was
`undefined` at line 497, in which case the call throws at once). -/
def hookedCloseModal (originalCloseModal : Option (Client → String → Client)) (st : Client)
    (id : String) : Option Client :=
  match originalCloseModal with
  | none => none
  | some original =>
    let st1 := original st id
    match st1.chatPollInterval with
    | some h =>
      if id == "chat-modal" && h != 0 then
        some { clearInterval st1 h with chatPollInterval := none, currentChatId := .null }
      else some st1
    | none => some st1

/-- The value of `window.closeModal` once the script has run: line 515,
`window.closeModal = closeModal`, comes after the assignment of the wrapper and
replaces it with the function declaration. -/
def windowCloseModal (st : Client) (id : String) : Client := closeModal st id

/-- The part of `loadMessages(chatId)` before its `fetch`: the guard
`!state.currentChatId || state.currentChatId !== chatId`, then the request. -/
def loadMessages (st : Client) (chatId : JsVal) : Client :=
  if !st.currentChatId.truthy || st.currentChatId != chatId then st
  else { st with fetches := st.fetches ++ [chatId] }

/-- The function `renderMessages(messages)`; when `state.user` is `null` it
throws at the first message, and leaves the page as it is, and it empties the
container when there is no message. -/
def renderMessages (st : Client) (messages : List Message) : Client :=
  match st.user with
  | none => if messages.isEmpty then { st with rendered := [] } else st
  | some uid =>
    { st with rendered := messages.map fun msg =>
        { mine := JsVal.num msg.senderId == uid, kind := contentKind msg.content,
          content := msg.content, createdAt := msg.createdAt } }

/-- Reply to a message-history request: the list of messages, or a failure of
the request or of the reading of its body. -/
inductive HistoryReply where
  | messages (l : List Message)
  | failed
  deriving DecidableEq, Repr

/-- The part of `loadMessages` after its `fetch`, for the request at position
`i` of the requests in flight: the messages are rendered; a failure is logged
to the console only. -/
def historyDone (st : Client) (i : Nat) (reply : HistoryReply) : Client :=
  if i < st.fetches.length then
    match reply with
    | .messages l => renderMessages { st with fetches := st.fetches.eraseIdx i } l
    | .failed => { st with fetches := st.fetches.eraseIdx i }
  else st

/-- The last two statements of `openChat`:
`if (state.chatPollInterval) clearInterval(state.chatPollInterval)` and
`state.chatPollInterval = setInterval(() => loadMessages(chatId), 1000)`. -/
def startPolling (st : Client) (chatId : JsVal) : Client :=
  let st1 :=
    match st.chatPollInterval with
    | some h => if h != 0 then clearInterval st h else st
    | none => st
  { st1 with
    chatPollInterval := some st1.nextHandle
    timers := st1.timers ++ [{ handle := st1.nextHandle, chatId := chatId, period := 1000 }]
    nextHandle := st1.nextHandle + 1 }

/-- The function `window.openChat(chatId, name, avatar, subtitle)`; the three
texts only go to the page. -/
def openChat (st : Client) (chatId : JsVal) : Client :=
  startPolling
    (loadMessages (openModal { st with currentChatId := chatId } "chat-modal") chatId) chatId

/-- A callback of an interval timer: nothing happens unless the timer is
active. -/
def tick (st : Client) (t : IntervalTimer) : Client :=
  if t ∈ st.timers then loadMessages st t.chatId else st

/-- The part of `window.triggerTrade(itemId, itemTitle, itemOwnerId, ...)`
before its `fetch`; the second component is the body of the request to
`POST /api/chats`, if one is sent. -/
def triggerTrade (st : Client) (itemId itemOwnerId : JsVal) : Client × Option ChatBody :=
  if !st.isLoggedIn then (openModal st "auth-modal", none)
  else
    match st.user with
    | none => (st, none)
    | some uid =>
      if itemOwnerId == uid then
        (showToast st "No puedes ofertar en tu propio producto" "error", none)
      else (st, some { userAId := uid, userBId := itemOwnerId, itemId := itemId })

/-- Reply to the request of `triggerTrade`: the request or the reading of its
body failed, or the server answered. -/
inductive ChatReply where
  | rejected
  | answer (r : Response Chat)
  deriving DecidableEq, Repr

/-- The part of `triggerTrade` after its `fetch`. The status of the answer is
not looked at: the body is read and `openChat(chat.id, ...)` is called, where
`chat.id` is `undefined` for an error body. -/
def triggerTradeDone (st : Client) (reply : ChatReply) : Client :=
  match reply with
  | .rejected => showToast st "Error al iniciar chat" "error"
  | .answer (.json chat) => openChat st (.num chat.id)
  | .answer (.error _ _) => openChat st .undefined

/-- What can happen on the page, as far as the chat is concerned. -/
inductive Event where
  | openChat (chatId : JsVal)
  | closeModal (id : String)
  | tick (t : IntervalTimer)
  | historyDone (i : Nat) (reply : HistoryReply)
  | triggerTrade (itemId itemOwnerId : JsVal)
  | triggerTradeDone (reply : ChatReply)
  | hookedCloseModal (originalDefined : Bool) (id : String)
  deriving DecidableEq, Repr

/-- The state after an event; `closeModal` is the function that the page can
call, `window.closeModal`. A call of the wrapper of lines 498 to 505 is an
event too, with `originalCloseModal` either `undefined` (the call throws and
changes nothing) or the function declaration `closeModal`, although no caller
can reach the wrapper once the script has run. -/
def Client.handle (st : Client) : Event → Client
  | .openChat chatId => openChat st chatId
  | .closeModal id => windowCloseModal st id
  | .tick t => tick st t
  | .historyDone i reply => historyDone st i reply
  | .triggerTrade itemId itemOwnerId => (triggerTrade st itemId itemOwnerId).1
  | .triggerTradeDone reply => triggerTradeDone st reply
  | .hookedCloseModal originalDefined id =>
    (hookedCloseModal (if originalDefined then some closeModal else none) st id).getD st

/-- The state after a sequence of events. -/
def Client.run (st : Client) (events : List Event) : Client := events.foldl Client.handle st

/-- At most one interval timer is active, and `state.chatPollInterval` holds
the handle of every active timer; handles are greater than zero. -/
def Client.onePoller (st : Client) : Prop :=
  0 < st.nextHandle ∧ (∀ h, st.chatPollInterval = some h → 0 < h) ∧
  st.timers.length ≤ 1 ∧ ∀ t ∈ st.timers, st.chatPollInterval = some t.handle

/-- Identifiers of conversations start at 1. -/
def Store.positiveIds (s : Store) : Prop := 1 ≤ s.nextChatId ∧ ∀ c ∈ s.chats, 1 ≤ c.id

/-! ## Properties of the find-or-create step -/

theorem chatWhere_swap (a b : Int) (i : Option Int) : chatWhere b a i = chatWhere a b i := by
  funext c
  simp only [chatWhere, Bool.or_comm]

theorem chatWhere_newChat (s : Store) (a b : Int) (i : Option Int) (t : Nat) :
    chatWhere a b i (newChat s a b i t) = true := by
  cases i <;> simp [chatWhere, newChat]

theorem findOrCreateChat_found {s : Store} {a b : Int} {i : Option Int} {c : Chat} (t : Nat)
    (h : s.chats.find? (chatWhere a b i) = some c) :
    findOrCreateChat s a b i t = (.json c, s) := by
  simp [findOrCreateChat, h]

theorem findOrCreateChat_created {s : Store} {a b : Int} {i : Option Int} (t : Nat)
    (h : s.chats.find? (chatWhere a b i) = none)
    (hc : a ∈ s.users ∧ b ∈ s.users ∧ ∀ j ∈ i, j ∈ s.items) :
    findOrCreateChat s a b i t = (.json (newChat s a b i t), withChat s (newChat s a b i t)) := by
  simp only [findOrCreateChat, h, createChat, if_pos hc]

theorem findOrCreateChat_refused {s : Store} {a b : Int} {i : Option Int} (t : Nat)
    (h : s.chats.find? (chatWhere a b i) = none)
    (hc : ¬ (a ∈ s.users ∧ b ∈ s.users ∧ ∀ j ∈ i, j ∈ s.items)) :
    findOrCreateChat s a b i t = (.error 500 "Error creating/getting chat", s) := by
  simp only [findOrCreateChat, h, createChat, if_neg hc]

/-- A second lookup with an equivalent filter, right after a first one, finds
what the first returned and writes nothing. -/
theorem findOrCreateChat_stable (s : Store) (a b a' b' : Int) (i : Option Int) (t1 t2 : Nat)
    (hw : chatWhere a' b' i = chatWhere a b i)
    (hu : (a' ∈ s.users ∧ b' ∈ s.users) ↔ (a ∈ s.users ∧ b ∈ s.users)) :
    findOrCreateChat (findOrCreateChat s a b i t1).2 a' b' i t2 = findOrCreateChat s a b i t1 := by
  cases h : s.chats.find? (chatWhere a b i) with
  | some c =>
    rw [findOrCreateChat_found t1 h]
    exact findOrCreateChat_found t2 (by rw [hw]; exact h)
  | none =>
    by_cases hc : a ∈ s.users ∧ b ∈ s.users ∧ (∀ j ∈ i, j ∈ s.items)
    · rw [findOrCreateChat_created t1 h hc]
      apply findOrCreateChat_found
      rw [hw]
      simp [withChat, List.find?_append, h, chatWhere_newChat]
    · rw [findOrCreateChat_refused t1 h hc]
      apply findOrCreateChat_refused t2 (by rw [hw]; exact h)
      intro h'
      exact hc ⟨(hu.1 ⟨h'.1, h'.2.1⟩).1, (hu.1 ⟨h'.1, h'.2.1⟩).2, h'.2.2⟩

/-- With existing users and an existing (or no) item the step returns a chat. -/
theorem findOrCreateChat_json (s : Store) (a b : Int) (i : Option Int) (t : Nat)
    (hc : a ∈ s.users ∧ b ∈ s.users ∧ ∀ j ∈ i, j ∈ s.items) :
    ∃ c, (findOrCreateChat s a b i t).1 = .json c := by
  cases h : s.chats.find? (chatWhere a b i) with
  | some c => exact ⟨c, by rw [findOrCreateChat_found t h]⟩
  | none => exact ⟨_, by rw [findOrCreateChat_created t h hc]⟩

/-- The step never answers with status 400. -/
theorem findOrCreateChat_status (s : Store) (a b : Int) (i : Option Int) (t : Nat) :
    (findOrCreateChat s a b i t).1 ≠ .error 400 "Invalid user IDs" := by
  cases h : s.chats.find? (chatWhere a b i) with
  | some c => rw [findOrCreateChat_found t h]; simp
  | none =>
    by_cases hc : a ∈ s.users ∧ b ∈ s.users ∧ (∀ j ∈ i, j ∈ s.items)
    · rw [findOrCreateChat_created t h hc]; simp
    · rw [findOrCreateChat_refused t h hc]; simp

theorem chatWhereNull_swap (a b : Int) : chatWhereNull b a = chatWhereNull a b := by
  funext c
  simp only [chatWhereNull, Bool.or_comm]

theorem chatWhereNull_newChat (s : Store) (a b : Int) (t : Nat) :
    chatWhereNull a b (newChat s a b none t) = true := by
  simp [chatWhereNull, newChat]

theorem findOrCreateChatNull_found {s : Store} {a b : Int} {c : Chat} (t : Nat)
    (h : s.chats.find? (chatWhereNull a b) = some c) :
    findOrCreateChatNull s a b t = (.json c, s) := by
  simp [findOrCreateChatNull, h]

theorem findOrCreateChatNull_created {s : Store} {a b : Int} (t : Nat)
    (h : s.chats.find? (chatWhereNull a b) = none) (hc : a ∈ s.users ∧ b ∈ s.users) :
    findOrCreateChatNull s a b t
      = (.json (newChat s a b none t), withChat s (newChat s a b none t)) := by
  have hc' : a ∈ s.users ∧ b ∈ s.users ∧ ∀ j ∈ (none : Option Int), j ∈ s.items :=
    ⟨hc.1, hc.2, by simp⟩
  simp only [findOrCreateChatNull, h, createChat, if_pos hc']

theorem findOrCreateChatNull_refused {s : Store} {a b : Int} (t : Nat)
    (h : s.chats.find? (chatWhereNull a b) = none) (hc : ¬ (a ∈ s.users ∧ b ∈ s.users)) :
    findOrCreateChatNull s a b t = (.error 500 "Error creating/getting chat", s) := by
  have hc' : ¬ (a ∈ s.users ∧ b ∈ s.users ∧ ∀ j ∈ (none : Option Int), j ∈ s.items) :=
    fun h' => hc ⟨h'.1, h'.2.1⟩
  simp only [findOrCreateChatNull, h, createChat, if_neg hc']

/-- The same for a lookup with a `NaN` item. -/
theorem findOrCreateChatNull_stable (s : Store) (a b a' b' : Int) (t1 t2 : Nat)
    (hw : chatWhereNull a' b' = chatWhereNull a b)
    (hu : (a' ∈ s.users ∧ b' ∈ s.users) ↔ (a ∈ s.users ∧ b ∈ s.users)) :
    findOrCreateChatNull (findOrCreateChatNull s a b t1).2 a' b' t2
      = findOrCreateChatNull s a b t1 := by
  cases h : s.chats.find? (chatWhereNull a b) with
  | some c =>
    rw [findOrCreateChatNull_found t1 h]
    exact findOrCreateChatNull_found t2 (by rw [hw]; exact h)
  | none =>
    by_cases hc : a ∈ s.users ∧ b ∈ s.users
    · rw [findOrCreateChatNull_created t1 h hc]
      apply findOrCreateChatNull_found
      rw [hw]
      simp [withChat, List.find?_append, h, chatWhereNull_newChat]
    · rw [findOrCreateChatNull_refused t1 h hc]
      exact findOrCreateChatNull_refused t2 (by rw [hw]; exact h) (fun h' => hc (hu.1 h'))

theorem findOrCreateChatNull_status (s : Store) (a b : Int) (t : Nat) :
    (findOrCreateChatNull s a b t).1 ≠ .error 400 "Invalid user IDs" := by
  cases h : s.chats.find? (chatWhereNull a b) with
  | some c => rw [findOrCreateChatNull_found t h]; simp
  | none =>
    by_cases hc : a ∈ s.users ∧ b ∈ s.users
    · rw [findOrCreateChatNull_created t h hc]; simp
    · rw [findOrCreateChatNull_refused t h hc]; simp

/-- An item that is truthy and not numeric: with chat 1 of users 1 and 2 on item
42 stored, the request (1, 2, `abc`) looks for a row without item, finds none
and creates chat 2 without item; the same request again returns chat 2. -/
theorem postChats_nan_item_creates :
    (postChats (postChats (Store.init [1, 2] [42]) ⟨.num 1, .num 2, .num 42⟩ 10).2
        ⟨.num 1, .num 2, .str "abc"⟩ 20).1
      = .json { id := 2, userAId := 1, userBId := 2, itemId := none, updatedAt := 20 } ∧
    (postChats (postChats (Store.init [1, 2] [42]) ⟨.num 1, .num 2, .num 42⟩ 10).2
        ⟨.num 1, .num 2, .str "abc"⟩ 20).2.chats
      = [{ id := 1, userAId := 1, userBId := 2, itemId := some 42, updatedAt := 10 },
         { id := 2, userAId := 1, userBId := 2, itemId := none, updatedAt := 20 }] ∧
    (postChats (postChats (postChats (Store.init [1, 2] [42]) ⟨.num 1, .num 2, .num 42⟩ 10).2
        ⟨.num 1, .num 2, .str "abc"⟩ 20).2 ⟨.num 1, .num 2, .bool true⟩ 30).1
      = .json { id := 2, userAId := 1, userBId := 2, itemId := none, updatedAt := 20 } := by
  decide

/-- The request that names the same two participants in the other order gets
the answer of the first request and writes nothing. -/
theorem postChats_swap_eq (s : Store) (a b item : JsVal) (t1 t2 : Nat) :
    postChats (postChats s ⟨a, b, item⟩ t1).2 ⟨b, a, item⟩ t2 = postChats s ⟨a, b, item⟩ t1 := by
  unfold postChats
  cases ha : parseInt a <;> cases hb : parseInt b <;> simp only [ha, hb]
  cases hi : itemArg item <;> simp only [hi]
  · exact findOrCreateChat_stable s _ _ _ _ none t1 t2 (chatWhere_swap _ _ _) And.comm
  · exact findOrCreateChatNull_stable s _ _ _ _ t1 t2 (chatWhereNull_swap _ _) And.comm
  · exact findOrCreateChat_stable s _ _ _ _ (some _) t1 t2 (chatWhere_swap _ _ _) And.comm

/-- A valid request on existing users and an existing (or no) item returns a
chat. -/
theorem postChats_json (s : Store) (a b item : JsVal) (t : Nat) (A B : Int)
    (hA : parseInt a = some A) (hB : parseInt b = some B)
    (hu : A ∈ s.users ∧ B ∈ s.users)
    (hi : itemArg item = .undefined ∨ ∃ i, itemArg item = .id i ∧ i ∈ s.items) :
    ∃ c, (postChats s ⟨a, b, item⟩ t).1 = .json c := by
  unfold postChats
  simp only [hA, hB]
  rcases hi with hi | ⟨i, hi, hmem⟩
  · simp only [hi]
    exact findOrCreateChat_json s A B none t ⟨hu.1, hu.2, by simp⟩
  · simp only [hi]
    exact findOrCreateChat_json s A B (some i) t ⟨hu.1, hu.2, by simpa using hmem⟩

/-! ## The uniqueness invariant -/

theorem chatWhere_of_sameKey (s : Store) (a b : Int) (i : Option Int) (t : Nat) (c : Chat)
    (h : c.sameKey (newChat s a b i t)) : chatWhere a b i c = true := by
  obtain ⟨hp, hi⟩ := h
  have hA : c.userAId ∈ c.pair := by simp [Chat.pair]
  have hB : c.userBId ∈ c.pair := by simp [Chat.pair]
  rw [hp] at hA hB
  simp only [Chat.pair, newChat, Finset.mem_insert, Finset.mem_singleton] at hA hB
  simp only [newChat] at hi
  cases i with
  | none => simp [chatWhere, hA, hB]
  | some j => simp [chatWhere, hA, hB, hi]

theorem findOrCreateChat_uniqueChats (s : Store) (a b : Int) (i : Option Int) (t : Nat)
    (hs : s.uniqueChats) : (findOrCreateChat s a b i t).2.uniqueChats := by
  cases h : s.chats.find? (chatWhere a b i) with
  | some c => rw [findOrCreateChat_found t h]; exact hs
  | none =>
    by_cases hc : a ∈ s.users ∧ b ∈ s.users ∧ (∀ j ∈ i, j ∈ s.items)
    · rw [findOrCreateChat_created t h hc]
      simp only [Store.uniqueChats, withChat, List.pairwise_append, List.pairwise_singleton,
        List.mem_singleton, true_and]
      refine ⟨hs, fun c hcmem d hd hk => ?_⟩
      subst hd
      have hw := chatWhere_of_sameKey s a b i t c hk
      have := List.find?_eq_none.1 h c hcmem
      exact this hw
    · rw [findOrCreateChat_refused t h hc]; exact hs

theorem chatWhereNull_of_sameKey (s : Store) (a b : Int) (t : Nat) (c : Chat)
    (h : c.sameKey (newChat s a b none t)) : chatWhereNull a b c = true := by
  obtain ⟨hp, hi⟩ := h
  have hA : c.userAId ∈ c.pair := by simp [Chat.pair]
  have hB : c.userBId ∈ c.pair := by simp [Chat.pair]
  rw [hp] at hA hB
  simp only [Chat.pair, newChat, Finset.mem_insert, Finset.mem_singleton] at hA hB
  simp only [newChat] at hi
  simp [chatWhereNull, hA, hB, hi]

theorem findOrCreateChatNull_uniqueChats (s : Store) (a b : Int) (t : Nat)
    (hs : s.uniqueChats) : (findOrCreateChatNull s a b t).2.uniqueChats := by
  cases h : s.chats.find? (chatWhereNull a b) with
  | some c => rw [findOrCreateChatNull_found t h]; exact hs
  | none =>
    by_cases hc : a ∈ s.users ∧ b ∈ s.users
    · rw [findOrCreateChatNull_created t h hc]
      simp only [Store.uniqueChats, withChat, List.pairwise_append, List.pairwise_singleton,
        List.mem_singleton, true_and]
      refine ⟨hs, fun c hcmem d hd hk => ?_⟩
      subst hd
      have hw := chatWhereNull_of_sameKey s a b t c hk
      have := List.find?_eq_none.1 h c hcmem
      exact this hw
    · rw [findOrCreateChatNull_refused t h hc]; exact hs

theorem postChats_uniqueChats (s : Store) (body : ChatBody) (t : Nat) (hs : s.uniqueChats) :
    (postChats s body t).2.uniqueChats := by
  unfold postChats
  cases ha : parseInt body.userAId <;> cases hb : parseInt body.userBId <;> simp only [ha, hb]
  any_goals exact hs
  cases hi : itemArg body.itemId <;> simp only [hi]
  · exact findOrCreateChat_uniqueChats s _ _ none t hs
  · exact findOrCreateChatNull_uniqueChats s _ _ t hs
  · exact findOrCreateChat_uniqueChats s _ _ (some _) t hs

theorem createMessage_chats {s s' : Store} {body : MessageBody} {t : Nat} {m : Message}
    (h : createMessage s body t = some (m, s')) : s'.chats = s.chats := by
  unfold createMessage at h
  split at h
  · split at h
    · simp only [Option.some.injEq, Prod.mk.injEq] at h
      rw [← h.2]
      rfl
    · exact absurd h (by simp)
  · exact absurd h (by simp)

theorem touchChat_chats {s s' : Store} {c : Int} {t : Nat} (h : touchChat s c t = some s') :
    s'.chats = touchedChats s.chats c t := by
  unfold touchChat at h
  split at h
  · simp only [Option.some.injEq] at h
    rw [← h]
  · exact absurd h (by simp)

theorem postMessages_refused {s : Store} {body : MessageBody} (t1 t2 : Nat)
    (h1 : createMessage s body t1 = none) :
    postMessages s body t1 t2 = (.error 500 "Error sending message", s) := by
  simp only [postMessages, h1]

theorem postMessages_sent {s s1 s2 : Store} {body : MessageBody} {t1 t2 : Nat} {m : Message}
    (h1 : createMessage s body t1 = some (m, s1)) (h2 : touchChat s1 m.chatId t2 = some s2) :
    postMessages s body t1 t2 = (.json m, s2) := by
  simp only [postMessages, h1, h2]

theorem postMessages_untouched {s s1 : Store} {body : MessageBody} {t1 t2 : Nat} {m : Message}
    (h1 : createMessage s body t1 = some (m, s1)) (h2 : touchChat s1 m.chatId t2 = none) :
    postMessages s body t1 t2 = (.error 500 "Error sending message", s1) := by
  simp only [postMessages, h1, h2]

theorem postMessages_uniqueChats (s : Store) (body : MessageBody) (t1 t2 : Nat)
    (hs : s.uniqueChats) : (postMessages s body t1 t2).2.uniqueChats := by
  cases h1 : createMessage s body t1 with
  | none => rw [postMessages_refused t1 t2 h1]; exact hs
  | some r =>
    obtain ⟨m, s1⟩ := r
    have hc1 := createMessage_chats h1
    cases h2 : touchChat s1 m.chatId t2 with
    | none =>
      rw [postMessages_untouched h1 h2]
      simp only [Store.uniqueChats, hc1]; exact hs
    | some s2 =>
      rw [postMessages_sent h1 h2]
      simp only [Store.uniqueChats, touchChat_chats h2, hc1, touchedChats, List.pairwise_map]
      refine hs.imp ?_
      intro c d hcd hk
      apply hcd
      obtain ⟨hp, hi⟩ := hk
      constructor
      · have := hp
        simp only [Chat.pair] at this ⊢
        split_ifs at this <;> simpa using this
      · split_ifs at hi <;> simpa using hi

theorem run_uniqueChats (reqs : List Request) (s : Store) (hs : s.uniqueChats) :
    (run s reqs).uniqueChats := by
  induction reqs generalizing s with
  | nil => exact hs
  | cons r rs ih =>
    simp only [run, List.foldl_cons]
    apply ih
    cases r with
    | chats body now => exact postChats_uniqueChats s body now hs
    | messages body t1 t2 => exact postMessages_uniqueChats s body t1 t2 hs

/-! ## Sorting and the message handlers -/

theorem orderedInsert_append_last {α : Type} (r : α → α → Prop) [DecidableRel r] (a m : α)
    (h : r a m) (xs : List α) :
    (xs ++ [m]).orderedInsert r a = xs.orderedInsert r a ++ [m] := by
  induction xs with
  | nil => simp [List.orderedInsert, h]
  | cons x xs ih =>
    by_cases hx : r a x
    · simp [List.orderedInsert, hx]
    · simp only [List.cons_append, List.orderedInsert, hx, if_false, List.append_eq, ih]

theorem insertionSort_append_last {α : Type} (r : α → α → Prop) [DecidableRel r] (m : α)
    (l : List α) (h : ∀ x ∈ l, r x m) :
    (l ++ [m]).insertionSort r = l.insertionSort r ++ [m] := by
  induction l with
  | nil => simp
  | cons a l ih =>
    have hl : ∀ x ∈ l, r x m := fun x hx => h x (List.mem_cons_of_mem _ hx)
    simp only [List.cons_append, List.insertionSort, List.append_eq, ih hl]
    exact orderedInsert_append_last r a m (h a (List.mem_cons_self _ _)) _

theorem createMessage_ok (s : Store) (c u : Int) (content : String) (t : Nat)
    (hc : ∃ x ∈ s.chats, x.id = c) (hu : u ∈ s.users) :
    createMessage s ⟨.num c, .num u, .str content⟩ t
      = some (newMessage s c u content t, withMessage s (newMessage s c u content t)) := by
  have hany : (s.chats.any fun x => x.id == c) = true := by
    obtain ⟨x, hx, hid⟩ := hc
    exact List.any_eq_true.2 ⟨x, hx, by simp [hid]⟩
  simp only [createMessage, hany, hu, and_self, if_true]

theorem touchChat_ok (s : Store) (c : Int) (t : Nat) (hc : ∃ x ∈ s.chats, x.id = c) :
    touchChat s c t = some { s with chats := touchedChats s.chats c t } := by
  have hany : (s.chats.any fun x => x.id == c) = true := by
    obtain ⟨x, hx, hid⟩ := hc
    exact List.any_eq_true.2 ⟨x, hx, by simp [hid]⟩
  simp only [touchChat, hany, if_true]

theorem postMessages_ok (s : Store) (c u : Int) (content : String) (t1 t2 : Nat)
    (hc : ∃ x ∈ s.chats, x.id = c) (hu : u ∈ s.users) :
    postMessages s ⟨.num c, .num u, .str content⟩ t1 t2
      = (.json (newMessage s c u content t1), afterSend s (newMessage s c u content t1) t2) := by
  have h1 := createMessage_ok s c u content t1 hc hu
  have h2 := touchChat_ok (withMessage s (newMessage s c u content t1)) c t2 hc
  exact postMessages_sent h1 h2

theorem messagesOfChat_afterSend (s : Store) (c u : Int) (content : String) (tMsg tUpd : Nat)
    (ht : ∀ x ∈ s.messages, x.chatId = c → x.createdAt ≤ tMsg) :
    messagesOfChat (afterSend s (newMessage s c u content tMsg) tUpd) c
      = messagesOfChat s c ++ [newMessage s c u content tMsg] := by
  simp only [messagesOfChat, afterSend, withMessage, newMessage, List.filter_append,
    List.filter_cons, beq_self_eq_true, if_true, List.filter_nil]
  apply insertionSort_append_last
  intro x hx
  rw [List.mem_filter] at hx
  exact ht x hx.1 (by simpa using hx.2)

theorem mem_touchedChats {chats : List Chat} {c : Int} {t : Nat} {y : Chat}
    (h : y ∈ touchedChats chats c t) :
    (y.id = c ∧ y.updatedAt = t) ∨ (y.id ≠ c ∧ y ∈ chats) := by
  simp only [touchedChats, List.mem_map] at h
  obtain ⟨x, hx, hxy⟩ := h
  by_cases hid : x.id = c
  · left
    simp only [hid, beq_self_eq_true, if_true] at hxy
    subst hxy
    exact ⟨rfl, rfl⟩
  · right
    have : (x.id == c) = false := by simpa using hid
    simp only [this, Bool.false_eq_true, if_false] at hxy
    subst hxy
    exact ⟨hid, hx⟩

theorem touched_mem_touchedChats {chats : List Chat} {x : Chat} (t : Nat) (hx : x ∈ chats) :
    { x with updatedAt := t } ∈ touchedChats chats x.id t := by
  simp only [touchedChats, List.mem_map]
  exact ⟨x, hx, by simp⟩

/-- The most recently touched chat heads the list of each user that takes part
in it. -/
theorem chatsOfUser_head (s : Store) (x : Chat) (u : Int) (m : Message) (tUpd : Nat)
    (hx : x ∈ s.chats) (hm : m.chatId = x.id) (hu : x.userAId = u ∨ x.userBId = u)
    (ht : ∀ y ∈ s.chats, y.id ≠ x.id → y.updatedAt < tUpd) :
    ∃ h tl, chatsOfUser (afterSend s m tUpd) u = h :: tl ∧ h.chat.id = x.id ∧
      h.chat.updatedAt = tUpd := by
  let r : Chat → Chat → Prop := fun c d => d.updatedAt ≤ c.updatedAt
  let l := (touchedChats s.chats x.id tUpd).filter fun c => c.userAId == u || c.userBId == u
  have hperm : (l.insertionSort r).Perm l := List.perm_insertionSort r l
  have hsorted : (l.insertionSort r).Sorted r := List.sorted_insertionSort r l
  have hxl : { x with updatedAt := tUpd } ∈ l := by
    refine List.mem_filter.2 ⟨touched_mem_touchedChats tUpd hx, ?_⟩
    rcases hu with hu | hu <;> simp [hu]
  have hxs : { x with updatedAt := tUpd } ∈ l.insertionSort r := hperm.mem_iff.2 hxl
  cases hsort : l.insertionSort r with
  | nil => rw [hsort] at hxs; exact absurd hxs (List.not_mem_nil _)
  | cons h tl =>
    rw [hsort] at hxs hsorted
    have hge : tUpd ≤ h.updatedAt := by
      rcases List.mem_cons.1 hxs with heq | hmem
      · rw [← heq]
      · exact List.rel_of_sorted_cons hsorted _ hmem
    have hhl : h ∈ touchedChats s.chats x.id tUpd := by
      have : h ∈ l := hperm.mem_iff.1 (by rw [hsort]; exact List.mem_cons_self _ _)
      exact (List.mem_filter.1 this).1
    have hh : h.id = x.id ∧ h.updatedAt = tUpd := by
      rcases mem_touchedChats hhl with hh | ⟨hne, hmem⟩
      · exact hh
      · exact absurd (ht h hmem hne) (Nat.not_lt.2 hge)
    refine ⟨⟨h, lastMessages (afterSend s m tUpd) h.id⟩,
      tl.map fun c => ⟨c, lastMessages (afterSend s m tUpd) c.id⟩, ?_, hh.1, hh.2⟩
    have : chatsOfUser (afterSend s m tUpd) u
        = (l.insertionSort r).map fun c => ⟨c, lastMessages (afterSend s m tUpd) c.id⟩ := by
      simp only [chatsOfUser, afterSend, hm, l, r]
    rw [this, hsort]
    rfl

theorem messagesOfChat_perm (s : Store) (c : Int) :
    (messagesOfChat s c).Perm (s.messages.filter fun m => m.chatId == c) :=
  List.perm_insertionSort _ _

theorem messagesOfChat_sorted (s : Store) (c : Int) :
    (messagesOfChat s c).Sorted fun m n => m.createdAt ≤ n.createdAt :=
  List.sorted_insertionSort _ _

/-! ## Outcomes of POST /api/messages -/

theorem createMessage_some {s s1 : Store} {body : MessageBody} {t : Nat} {m : Message}
    (h : createMessage s body t = some (m, s1)) :
    ∃ c u content, body = ⟨.num c, .num u, .str content⟩ ∧ (∃ x ∈ s.chats, x.id = c) ∧
      u ∈ s.users ∧ m = newMessage s c u content t ∧ s1 = withMessage s m := by
  obtain ⟨bc, bu, bt⟩ := body
  unfold createMessage at h
  split at h
  · rename_i c u content hc hu ht
    simp only at hc hu ht
    subst hc hu ht
    split at h
    · rename_i hcond
      simp only [Option.some.injEq, Prod.mk.injEq] at h
      obtain ⟨hm, hs⟩ := h
      subst hm
      refine ⟨c, u, content, rfl, ?_, hcond.2, rfl, hs.symm⟩
      obtain ⟨x, hx, hid⟩ := List.any_eq_true.1 hcond.1
      exact ⟨x, hx, by simpa using hid⟩
    · exact absurd h (by simp)
  · exact absurd h (by simp)

/-- The two outcomes of `POST /api/messages`: nothing is written and the answer
is an error, or both writes are made and the answer is the new message. -/
theorem postMessages_cases (s : Store) (body : MessageBody) (tMsg tUpd : Nat) :
    postMessages s body tMsg tUpd = (.error 500 "Error sending message", s) ∨
    ∃ c u content, body = ⟨.num c, .num u, .str content⟩ ∧ (∃ x ∈ s.chats, x.id = c) ∧
      u ∈ s.users ∧
      postMessages s body tMsg tUpd
        = (.json (newMessage s c u content tMsg),
           afterSend s (newMessage s c u content tMsg) tUpd) := by
  cases h1 : createMessage s body tMsg with
  | none => exact Or.inl (postMessages_refused tMsg tUpd h1)
  | some r =>
    obtain ⟨m, s1⟩ := r
    obtain ⟨c, u, content, hb, hc, hu, hm, hs⟩ := createMessage_some h1
    subst hb
    exact Or.inr ⟨c, u, content, rfl, hc, hu, postMessages_ok s c u content tMsg tUpd hc hu⟩

theorem upToDate_iff (s : Store) :
    s.upToDate = true ↔
      ∀ m ∈ s.messages, ∀ c ∈ s.chats, c.id = m.chatId → m.createdAt ≤ c.updatedAt := by
  simp only [Store.upToDate, List.all_eq_true, Bool.or_eq_true, bne_iff_ne, ne_eq,
    decide_eq_true_eq]
  constructor
  · intro h m hm c hc hid
    rcases h m hm c hc with h | h
    · exact absurd hid h
    · exact h
  · intro h m hm c hc
    by_cases hid : c.id = m.chatId
    · exact Or.inr (h m hm c hc hid)
    · exact Or.inl hid

theorem afterSend_upToDate (s : Store) (c u : Int) (content : String) (tMsg tUpd : Nat)
    (hs : s.upToDate = true) (ht : tMsg ≤ tUpd)
    (hmono : ∀ x ∈ s.chats, x.id = c → x.updatedAt ≤ tUpd) :
    (afterSend s (newMessage s c u content tMsg) tUpd).upToDate = true := by
  rw [upToDate_iff] at hs ⊢
  intro m hm y hy hid
  simp only [afterSend, withMessage, newMessage, List.mem_append, List.mem_singleton] at hm hy
  rcases mem_touchedChats hy with ⟨hyc, hyt⟩ | ⟨hyc, hymem⟩
  · rw [hyt]
    rcases hm with hm | hm
    · -- an older message of the touched chat
      simp only [touchedChats, List.mem_map] at hy
      obtain ⟨x, hx, hxy⟩ := hy
      have hxc : x.id = c := by
        by_cases hxc : x.id = c
        · exact hxc
        · have : (x.id == c) = false := by simpa using hxc
          simp only [this, Bool.false_eq_true, if_false] at hxy
          rw [hxy] at hxc
          exact absurd hyc hxc
      have h1 := hs m hm x hx (by rw [hxc, ← hyc, hid])
      exact Nat.le_trans h1 (hmono x hx hxc)
    · rw [hm]; exact ht
  · rcases hm with hm | hm
    · exact hs m hm y hymem hid
    · rw [hm] at hid
      exact absurd hid hyc

/-! ## Interleaved handlers, frames and the last message -/

/-- A handler that runs alone does what `findOrCreateChat` does. -/
theorem ChatHandler.step_step (s : Store) (a b : Int) (i : Option Int) (t : Nat) :
    (((ChatHandler.lookup a b i t).step s).1.step ((ChatHandler.lookup a b i t).step s).2)
      = (.answered (findOrCreateChat s a b i t).1, (findOrCreateChat s a b i t).2) := by
  cases h : s.chats.find? (chatWhere a b i) with
  | some c => simp [ChatHandler.step, h, findOrCreateChat]
  | none =>
    cases hc : createChat s a b i t with
    | none => simp [ChatHandler.step, h, hc, findOrCreateChat]
    | some r => simp [ChatHandler.step, h, hc, findOrCreateChat]

theorem touchedChats_frame (chats : List Chat) (c : Int) (t : Nat) :
    List.Forall₂
      (fun x y => y.id = x.id ∧ y.userAId = x.userAId ∧ y.userBId = x.userBId ∧
        y.itemId = x.itemId ∧ (x.id ≠ c → y = x) ∧ (x.id = c → y.updatedAt = t))
      chats (touchedChats chats c t) := by
  induction chats with
  | nil => exact List.Forall₂.nil
  | cons x xs ih =>
    refine List.Forall₂.cons ?_ ih
    by_cases hx : x.id = c
    · simp [hx]
    · have : (x.id == c) = false := by simpa using hx
      simp [this, hx]

theorem findOrCreateChat_frame (s : Store) (a b : Int) (i : Option Int) (t : Nat) :
    (findOrCreateChat s a b i t).2.messages = s.messages ∧
    (findOrCreateChat s a b i t).2.users = s.users ∧
    (findOrCreateChat s a b i t).2.items = s.items ∧
    ∃ l, (findOrCreateChat s a b i t).2.chats = s.chats ++ l ∧ l.length ≤ 1 := by
  cases h : s.chats.find? (chatWhere a b i) with
  | some c => rw [findOrCreateChat_found t h]; exact ⟨rfl, rfl, rfl, [], by simp, by simp⟩
  | none =>
    by_cases hc : a ∈ s.users ∧ b ∈ s.users ∧ (∀ j ∈ i, j ∈ s.items)
    · rw [findOrCreateChat_created t h hc]
      exact ⟨rfl, rfl, rfl, [newChat s a b i t], rfl, by simp⟩
    · rw [findOrCreateChat_refused t h hc]; exact ⟨rfl, rfl, rfl, [], by simp, by simp⟩

theorem findOrCreateChatNull_frame (s : Store) (a b : Int) (t : Nat) :
    (findOrCreateChatNull s a b t).2.messages = s.messages ∧
    (findOrCreateChatNull s a b t).2.users = s.users ∧
    (findOrCreateChatNull s a b t).2.items = s.items ∧
    ∃ l, (findOrCreateChatNull s a b t).2.chats = s.chats ++ l ∧ l.length ≤ 1 := by
  cases h : s.chats.find? (chatWhereNull a b) with
  | some c => rw [findOrCreateChatNull_found t h]; exact ⟨rfl, rfl, rfl, [], by simp, by simp⟩
  | none =>
    by_cases hc : a ∈ s.users ∧ b ∈ s.users
    · rw [findOrCreateChatNull_created t h hc]
      exact ⟨rfl, rfl, rfl, [newChat s a b none t], rfl, by simp⟩
    · rw [findOrCreateChatNull_refused t h hc]; exact ⟨rfl, rfl, rfl, [], by simp, by simp⟩

theorem postChats_store (s : Store) (body : ChatBody) (now : Nat) :
    (postChats s body now).2 = s ∨
    (∃ a b i, (postChats s body now).2 = (findOrCreateChat s a b i now).2) ∨
    ∃ a b, (postChats s body now).2 = (findOrCreateChatNull s a b now).2 := by
  unfold postChats
  cases ha : parseInt body.userAId <;> cases hb : parseInt body.userBId
  · exact Or.inl rfl
  · exact Or.inl rfl
  · exact Or.inl rfl
  · cases hi : itemArg body.itemId
    · exact Or.inr (Or.inl ⟨_, _, none, rfl⟩)
    · exact Or.inr (Or.inr ⟨_, _, rfl⟩)
    · exact Or.inr (Or.inl ⟨_, _, some _, rfl⟩)

theorem postChats_frame (s : Store) (body : ChatBody) (now : Nat) :
    (postChats s body now).2.messages = s.messages ∧
    (postChats s body now).2.users = s.users ∧
    (postChats s body now).2.items = s.items ∧
    ∃ l, (postChats s body now).2.chats = s.chats ++ l ∧ l.length ≤ 1 := by
  rcases postChats_store s body now with h | ⟨a, b, i, h⟩ | ⟨a, b, h⟩
  · rw [h]; exact ⟨rfl, rfl, rfl, [], by simp, by simp⟩
  · rw [h]; exact findOrCreateChat_frame s a b i now
  · rw [h]; exact findOrCreateChatNull_frame s a b now

theorem lastMessages_spec (s : Store) (c : Int) :
    (lastMessages s c).length ≤ 1 ∧
    (lastMessages s c = [] ↔ ∀ m ∈ s.messages, m.chatId ≠ c) ∧
    (∀ m ∈ lastMessages s c, m ∈ s.messages ∧ m.chatId = c ∧
      ∀ n ∈ s.messages, n.chatId = c → n.createdAt ≤ m.createdAt) := by
  let r : Message → Message → Prop := fun m n => n.createdAt ≤ m.createdAt
  let l := s.messages.filter fun m => m.chatId == c
  have hperm : (l.insertionSort r).Perm l := List.perm_insertionSort r l
  have hsorted : (l.insertionSort r).Sorted r := List.sorted_insertionSort r l
  have hdef : lastMessages s c = (l.insertionSort r).take 1 := rfl
  have hmem : ∀ m, m ∈ l ↔ m ∈ s.messages ∧ m.chatId = c := by
    intro m
    simp [l, List.mem_filter]
  rw [hdef]
  cases hsort : l.insertionSort r with
  | nil =>
    have hl : l = [] := by
      have := hperm
      rw [hsort] at this
      exact List.Perm.nil_eq this |>.symm
    refine ⟨by simp, ⟨fun _ m hm hc => ?_, fun _ => by simp⟩, fun m hm => by simp at hm⟩
    have : m ∈ l := (hmem m).2 ⟨hm, hc⟩
    rw [hl] at this
    exact absurd this (List.not_mem_nil _)
  | cons h tl =>
    rw [hsort] at hperm hsorted
    have hh : h ∈ l := hperm.mem_iff.1 (List.mem_cons_self _ _)
    refine ⟨by simp, ⟨fun hnil => by simp at hnil, fun hall => ?_⟩, fun m hm => ?_⟩
    · exact absurd ((hmem h).1 hh).2 (hall h ((hmem h).1 hh).1)
    · simp only [List.take_succ_cons, List.take_zero, List.mem_singleton] at hm
      subst hm
      refine ⟨((hmem m).1 hh).1, ((hmem m).1 hh).2, fun n hn hnc => ?_⟩
      have hnl : n ∈ m :: tl := hperm.mem_iff.2 ((hmem n).2 ⟨hn, hnc⟩)
      rcases List.mem_cons.1 hnl with heq | hmem'
      · rw [heq]
      · exact List.rel_of_sorted_cons hsorted _ hmem'

/-! ## The client -/

theorem matchIgnoreCase_some (e rest post : List Char) :
    matchIgnoreCase e rest = some post ↔ ∃ ext, rest = ext ++ post ∧ ext.map Char.toLower = e := by
  induction e generalizing rest with
  | nil =>
    simp only [matchIgnoreCase, Option.some.injEq, List.map_eq_nil_iff]
    constructor
    · intro h; exact ⟨[], by simp [h], rfl⟩
    · rintro ⟨ext, h, rfl⟩; simpa using h
  | cons p ps ih =>
    cases rest with
    | nil =>
      simp only [matchIgnoreCase]
      refine ⟨fun h => absurd h (by simp), ?_⟩
      rintro ⟨ext, h, hm⟩
      have : ext = [] := by
        cases ext with
        | nil => rfl
        | cons a as => simp at h
      subst this
      simp at hm
    | cons c cs =>
      simp only [matchIgnoreCase]
      by_cases hc : c.toLower = p
      · simp only [hc, beq_self_eq_true, if_true, ih]
        constructor
        · rintro ⟨ext, h, hm⟩
          exact ⟨c :: ext, by simp [h], by simp [hc, hm]⟩
        · rintro ⟨ext, h, hm⟩
          cases ext with
          | nil => simp at hm
          | cons a as =>
            simp only [List.cons_append, List.cons.injEq] at h
            simp only [List.map_cons, List.cons.injEq] at hm
            exact ⟨as, h.2, hm.2⟩
      · have hb : (c.toLower == p) = false := by simpa using hc
        simp only [hb, Bool.false_eq_true, if_false]
        refine ⟨fun h => absurd h (by simp), ?_⟩
        rintro ⟨ext, h, hm⟩
        cases ext with
        | nil => simp at hm
        | cons a as =>
          simp only [List.cons_append, List.cons.injEq] at h
          simp only [List.map_cons, List.cons.injEq] at hm
          exact absurd (by rw [h.1]; exact hm.1) hc

theorem matchesHere_iff (cs : List Char) :
    matchesHere cs = true ↔
      ∃ ext post, cs = '.' :: (ext ++ post) ∧ ext.map Char.toLower ∈ imageExtensions ∧
        (post = [] ∨ ∃ r, post = '?' :: r) := by
  unfold matchesHere
  split
  · rename_i rest
    simp only [List.any_eq_true, List.cons.injEq, true_and]
    constructor
    · rintro ⟨e, he, hm⟩
      split at hm
      · rename_i h
        obtain ⟨ext, h1, h2⟩ := (matchIgnoreCase_some e rest []).1 h
        exact ⟨ext, [], h1, by rw [h2]; exact he, Or.inl rfl⟩
      · rename_i r h
        obtain ⟨ext, h1, h2⟩ := (matchIgnoreCase_some e rest ('?' :: r)).1 h
        exact ⟨ext, '?' :: r, h1, by rw [h2]; exact he, Or.inr ⟨r, rfl⟩⟩
      · exact absurd hm (by simp)
    · rintro ⟨ext, post, h1, h2, h3⟩
      refine ⟨ext.map Char.toLower, h2, ?_⟩
      have := (matchIgnoreCase_some (ext.map Char.toLower) rest post).2 ⟨ext, h1, rfl⟩
      rw [this]
      rcases h3 with rfl | ⟨r, rfl⟩ <;> rfl
  · rename_i hne
    simp only [Bool.false_eq_true, false_iff, not_exists, not_and]
    intro ext post h
    exact absurd h (hne _)

theorem isImageUrl_iff (cs : List Char) :
    isImageUrl cs = true ↔
      ∃ pre ext post, cs = pre ++ '.' :: (ext ++ post) ∧
        ext.map Char.toLower ∈ imageExtensions ∧ (post = [] ∨ ∃ r, post = '?' :: r) := by
  simp only [isImageUrl, List.any_eq_true, List.mem_tails, matchesHere_iff]
  constructor
  · rintro ⟨t, ⟨pre, hpre⟩, ext, post, ht, h2, h3⟩
    exact ⟨pre, ext, post, by rw [← hpre, ht], h2, h3⟩
  · rintro ⟨pre, ext, post, h1, h2, h3⟩
    exact ⟨'.' :: (ext ++ post), ⟨pre, h1.symm⟩, ext, post, rfl, h2, h3⟩

theorem loadMessages_frame (st : Client) (c : JsVal) :
    (loadMessages st c).timers = st.timers ∧
    (loadMessages st c).chatPollInterval = st.chatPollInterval ∧
    (loadMessages st c).nextHandle = st.nextHandle ∧
    (loadMessages st c).currentChatId = st.currentChatId := by
  unfold loadMessages
  split <;> exact ⟨rfl, rfl, rfl, rfl⟩

theorem openModal_frame (st : Client) (id : String) :
    (openModal st id).timers = st.timers ∧
    (openModal st id).chatPollInterval = st.chatPollInterval ∧
    (openModal st id).nextHandle = st.nextHandle ∧
    (openModal st id).currentChatId = st.currentChatId ∧
    (openModal st id).fetches = st.fetches := by
  unfold openModal
  split <;> exact ⟨rfl, rfl, rfl, rfl, rfl⟩

theorem renderMessages_frame (st : Client) (l : List Message) :
    (renderMessages st l).timers = st.timers ∧
    (renderMessages st l).chatPollInterval = st.chatPollInterval ∧
    (renderMessages st l).nextHandle = st.nextHandle := by
  unfold renderMessages
  split
  · split <;> exact ⟨rfl, rfl, rfl⟩
  · exact ⟨rfl, rfl, rfl⟩

theorem onePoller_of_eq {st st' : Client} (h : st.onePoller) (ht : st'.timers = st.timers)
    (hp : st'.chatPollInterval = st.chatPollInterval) (hn : st'.nextHandle = st.nextHandle) :
    st'.onePoller := by
  unfold Client.onePoller at h ⊢
  rw [ht, hp, hn]
  exact h

theorem startPolling_frame (st : Client) (c : JsVal) :
    (startPolling st c).currentChatId = st.currentChatId ∧
    (startPolling st c).fetches = st.fetches ∧
    (startPolling st c).chatPollInterval = some st.nextHandle ∧
    (startPolling st c).nextHandle = st.nextHandle + 1 ∧
    { handle := st.nextHandle, chatId := c, period := 1000 } ∈ (startPolling st c).timers := by
  unfold startPolling
  cases st.chatPollInterval with
  | none => simp
  | some h =>
    by_cases hh : h = 0
    · simp [hh]
    · simp [hh, clearInterval]

/-- In a state with one poller at most, `startPolling` leaves the new timer as
the only active one. -/
theorem startPolling_timers (st : Client) (c : JsVal) (h : st.onePoller) :
    (startPolling st c).timers = [{ handle := st.nextHandle, chatId := c, period := 1000 }] := by
  obtain ⟨_, hpos, _, hall⟩ := h
  unfold startPolling
  cases hcp : st.chatPollInterval with
  | none =>
    have hnil : st.timers = [] := by
      cases hts : st.timers with
      | nil => rfl
      | cons t ts =>
        have := hall t (by rw [hts]; exact List.mem_cons_self _ _)
        rw [hcp] at this
        exact absurd this (by simp)
    simp [hnil]
  | some hd =>
    have hne : hd ≠ 0 := by
      have := hpos hd hcp
      omega
    have hfil : (st.timers.filter fun t => t.handle != hd) = [] := by
      rw [List.filter_eq_nil_iff]
      intro t ht'
      have := hall t ht'
      rw [hcp] at this
      simp only [Option.some.injEq] at this
      simp [this]
    simp [hne, clearInterval, hfil]

theorem startPolling_onePoller (st : Client) (c : JsVal) (h : st.onePoller) :
    (startPolling st c).onePoller := by
  have h1 := startPolling_timers st c h
  obtain ⟨_, _, h2, h3, _⟩ := startPolling_frame st c
  have hn := h.1
  refine ⟨by rw [h3]; omega, ?_, by rw [h1]; simp, ?_⟩
  · intro x hx
    rw [h2] at hx
    simp only [Option.some.injEq] at hx
    omega
  · intro t ht
    rw [h1] at ht
    simp only [List.mem_singleton] at ht
    rw [h2, ht]

theorem openChat_onePoller (st : Client) (c : JsVal) (h : st.onePoller) :
    (openChat st c).onePoller := by
  unfold openChat
  apply startPolling_onePoller
  have h3 := loadMessages_frame (openModal { st with currentChatId := c } "chat-modal") c
  have h2 := openModal_frame { st with currentChatId := c } "chat-modal"
  exact onePoller_of_eq h (by rw [h3.1, h2.1]) (by rw [h3.2.1, h2.2.1]) (by rw [h3.2.2.1, h2.2.2.1])

theorem hookedCloseModal_onePoller (st st' : Client) (id : String) (h : st.onePoller)
    (hs : hookedCloseModal (some closeModal) st id = some st') : st'.onePoller := by
  have h1 : (closeModal st id).onePoller := onePoller_of_eq h rfl rfl rfl
  simp only [hookedCloseModal] at hs
  generalize closeModal st id = st1 at hs h1
  obtain ⟨hn, hpos, hlen, hall⟩ := h1
  cases hcp : st1.chatPollInterval with
  | none =>
    rw [hcp] at hs
    simp only [Option.some.injEq] at hs
    subst hs
    exact ⟨hn, hpos, hlen, hall⟩
  | some hd =>
    rw [hcp] at hs
    simp only at hs
    split at hs
    · simp only [Option.some.injEq] at hs
      subst hs
      have hfil : (st1.timers.filter fun t => t.handle != hd) = [] := by
        rw [List.filter_eq_nil_iff]
        intro t ht'
        have := hall t ht'
        rw [hcp] at this
        simp only [Option.some.injEq] at this
        simp [this]
      refine ⟨hn, by simp, by simp [clearInterval, hfil], ?_⟩
      intro t ht
      simp [clearInterval, hfil] at ht
    · simp only [Option.some.injEq] at hs
      subst hs
      exact ⟨hn, hpos, hlen, hall⟩

theorem handle_onePoller (st : Client) (e : Event) (h : st.onePoller) :
    (st.handle e).onePoller := by
  cases e with
  | openChat c => exact openChat_onePoller st c h
  | closeModal id => exact onePoller_of_eq h rfl rfl rfl
  | tick t =>
    simp only [Client.handle, tick]
    split
    · exact onePoller_of_eq h (loadMessages_frame st _).1 (loadMessages_frame st _).2.1
        (loadMessages_frame st _).2.2.1
    · exact h
  | historyDone i reply =>
    simp only [Client.handle, historyDone]
    split
    · cases reply with
      | messages l =>
        exact onePoller_of_eq h (renderMessages_frame _ l).1 (renderMessages_frame _ l).2.1
          (renderMessages_frame _ l).2.2
      | failed => exact onePoller_of_eq h rfl rfl rfl
    · exact h
  | triggerTrade itemId owner =>
    simp only [Client.handle, triggerTrade]
    split
    · exact onePoller_of_eq h (openModal_frame st _).1 (openModal_frame st _).2.1
        (openModal_frame st _).2.2.1
    · split
      · exact h
      · split
        · exact onePoller_of_eq h rfl rfl rfl
        · exact h
  | triggerTradeDone reply =>
    simp only [Client.handle, triggerTradeDone]
    split
    · exact onePoller_of_eq h rfl rfl rfl
    · exact openChat_onePoller st _ h
    · exact openChat_onePoller st _ h
  | hookedCloseModal originalDefined id =>
    simp only [Client.handle]
    cases originalDefined with
    | false => exact h
    | true =>
      cases hs : hookedCloseModal (some closeModal) st id with
      | none => simpa [hs] using h
      | some st' => simpa [hs] using hookedCloseModal_onePoller st st' id h hs

theorem run_onePoller (events : List Event) (st : Client) (h : st.onePoller) :
    (st.run events).onePoller := by
  induction events generalizing st with
  | nil => exact h
  | cons e es ih =>
    simp only [Client.run, List.foldl_cons]
    exact ih _ (handle_onePoller st e h)

theorem tick_open (st : Client) (t : IntervalTimer) (hc : t.chatId.truthy = true)
    (ht : t ∈ st.timers) (hcur : st.currentChatId = t.chatId) :
    (tick st t).fetches = st.fetches ++ [t.chatId] := by
  simp only [tick, ht, if_true, loadMessages, hcur, hc, bne_self_eq_false, Bool.not_true,
    Bool.or_self, Bool.false_eq_true, if_false]

theorem tick_other (st : Client) (t : IntervalTimer) (hcur : st.currentChatId ≠ t.chatId) :
    (tick st t).fetches = st.fetches := by
  have : (st.currentChatId != t.chatId) = true := by simpa using hcur
  simp only [tick, loadMessages, this, Bool.or_true, if_true]
  split <;> rfl

theorem loadMessages_open (st : Client) (c : JsVal) (hc : c.truthy = true)
    (hcur : st.currentChatId = c) : (loadMessages st c).fetches = st.fetches ++ [c] := by
  simp only [loadMessages, hcur, hc, bne_self_eq_false, Bool.not_true, Bool.or_self,
    Bool.false_eq_true, if_false]

theorem openChat_polls (st : Client) (c : JsVal) (hc : c.truthy = true) :
    (openChat st c).currentChatId = c ∧
    (openChat st c).fetches = st.fetches ++ [c] ∧
    ∃ t, t ∈ (openChat st c).timers ∧ t.chatId = c ∧ t.period = 1000 ∧
      (openChat st c).chatPollInterval = some t.handle ∧
      (∀ st', t ∈ st'.timers → st'.currentChatId = c → (tick st' t).fetches = st'.fetches ++ [c]) ∧
      (∀ st', st'.currentChatId ≠ c → (tick st' t).fetches = st'.fetches) := by
  have h2 := openModal_frame { st with currentChatId := c } "chat-modal"
  have h3 := loadMessages_frame (openModal { st with currentChatId := c } "chat-modal") c
  have hload := loadMessages_open (openModal { st with currentChatId := c } "chat-modal") c hc
    h2.2.2.2.1
  rw [h2.2.2.2.2] at hload
  obtain ⟨f1, f2, f3, _, f5⟩ :=
    startPolling_frame (loadMessages (openModal { st with currentChatId := c } "chat-modal") c) c
  generalize (loadMessages (openModal { st with currentChatId := c } "chat-modal") c).nextHandle
    = n at f3 f5
  refine ⟨?_, ?_, ⟨n, c, 1000⟩, f5, rfl, rfl, f3, ?_, ?_⟩
  · show (startPolling _ c).currentChatId = c
    rw [f1, h3.2.2.2, h2.2.2.2.1]
  · show (startPolling _ c).fetches = st.fetches ++ [c]
    rw [f2, hload]
  · intro st' ht hcur
    exact tick_open st' ⟨n, c, 1000⟩ hc ht hcur
  · intro st' hcur
    exact tick_other st' ⟨n, c, 1000⟩ hcur

theorem findOrCreateChat_positiveIds (s : Store) (a b : Int) (i : Option Int) (t : Nat)
    (hs : s.positiveIds) : (findOrCreateChat s a b i t).2.positiveIds := by
  cases h : s.chats.find? (chatWhere a b i) with
  | some c => rw [findOrCreateChat_found t h]; exact hs
  | none =>
    by_cases hc : a ∈ s.users ∧ b ∈ s.users ∧ (∀ j ∈ i, j ∈ s.items)
    · rw [findOrCreateChat_created t h hc]
      obtain ⟨h1, h2⟩ := hs
      refine ⟨by simp only [withChat]; omega, fun c hcm => ?_⟩
      simp only [withChat, List.mem_append, List.mem_singleton] at hcm
      rcases hcm with hcm | hcm
      · exact h2 c hcm
      · rw [hcm]; exact h1
    · rw [findOrCreateChat_refused t h hc]; exact hs

theorem findOrCreateChatNull_positiveIds (s : Store) (a b : Int) (t : Nat)
    (hs : s.positiveIds) : (findOrCreateChatNull s a b t).2.positiveIds := by
  cases h : s.chats.find? (chatWhereNull a b) with
  | some c => rw [findOrCreateChatNull_found t h]; exact hs
  | none =>
    by_cases hc : a ∈ s.users ∧ b ∈ s.users
    · rw [findOrCreateChatNull_created t h hc]
      obtain ⟨h1, h2⟩ := hs
      refine ⟨by simp only [withChat]; omega, fun c hcm => ?_⟩
      simp only [withChat, List.mem_append, List.mem_singleton] at hcm
      rcases hcm with hcm | hcm
      · exact h2 c hcm
      · rw [hcm]; exact h1
    · rw [findOrCreateChatNull_refused t h hc]; exact hs

theorem handle_positiveIds (s : Store) (r : Request) (hs : s.positiveIds) :
    (handle s r).positiveIds := by
  cases r with
  | chats body now =>
    simp only [handle]
    rcases postChats_store s body now with h | ⟨a, b, i, h⟩ | ⟨a, b, h⟩
    · rw [h]; exact hs
    · rw [h]; exact findOrCreateChat_positiveIds s a b i now hs
    · rw [h]; exact findOrCreateChatNull_positiveIds s a b now hs
  | messages body t1 t2 =>
    simp only [handle]
    rcases postMessages_cases s body t1 t2 with h | ⟨c, u, content, _, _, _, h⟩
    · rw [h]; exact hs
    · rw [h]
      refine ⟨hs.1, fun y hy => ?_⟩
      simp only [afterSend, touchedChats, List.mem_map] at hy
      obtain ⟨x, hx, hxy⟩ := hy
      have := hs.2 x hx
      split at hxy <;> (rw [← hxy]; exact this)

theorem run_positiveIds (reqs : List Request) (s : Store) (hs : s.positiveIds) :
    (run s reqs).positiveIds := by
  induction reqs generalizing s with
  | nil => exact hs
  | cons r rs ih =>
    simp only [run, List.foldl_cons]
    exact ih _ (handle_positiveIds s r hs)

/-! ## Claims -/

/-- C1. Set-symmetry of the chat resolver: for every store, every two
participant fields that `parseInt` reads as integers and every item field,
`POST /api/chats` with (A, B, item) followed by `POST /api/chats` with
(B, A, item) gives the same answer twice, and when the two users exist and the
item is absent or exists, that answer is one conversation (hence one id). -/
theorem postChats_set_symmetry (s : Store) (a b item : JsVal) (t1 t2 : Nat) (A B : Int)
    (hA : parseInt a = some A) (hB : parseInt b = some B) :
    (postChats (postChats s ⟨a, b, item⟩ t1).2 ⟨b, a, item⟩ t2).1
        = (postChats s ⟨a, b, item⟩ t1).1 ∧
    (A ∈ s.users → B ∈ s.users →
      (itemArg item = .undefined ∨ ∃ i, itemArg item = .id i ∧ i ∈ s.items) →
      ∃ c, (postChats s ⟨a, b, item⟩ t1).1 = .json c ∧
        (postChats (postChats s ⟨a, b, item⟩ t1).2 ⟨b, a, item⟩ t2).1 = .json c) := by
  have h := postChats_swap_eq s a b item t1 t2
  refine ⟨by rw [h], fun hAu hBu hi => ?_⟩
  obtain ⟨c, hc⟩ := postChats_json s a b item t1 A B hA hB ⟨hAu, hBu⟩ hi
  exact ⟨c, hc, by rw [h]; exact hc⟩

/-- Witness of C1: users 1 and 2, item 42, no chat; the second request names
the participants in the other order and as strings. -/
theorem postChats_set_symmetry_witness :
    ∃ c, (postChats (Store.init [1, 2] [42]) ⟨.str "1", .str "2", .num 42⟩ 10).1 = .json c ∧
      (postChats (postChats (Store.init [1, 2] [42]) ⟨.str "1", .str "2", .num 42⟩ 10).2
        ⟨.str "2", .str "1", .num 42⟩ 20).1 = .json c :=
  (postChats_set_symmetry (Store.init [1, 2] [42]) (.str "1") (.str "2") (.num 42) 10 20 1 2
    (by decide) (by decide)).2 (by decide) (by decide) (Or.inr ⟨42, by decide, by decide⟩)

/-- C2. Idempotence of the chat resolver: for every store and every request
body, a second identical `POST /api/chats` right after the first gives the
answer of the first (the same conversation, with the same fields) and leaves
the store as the first call left it. -/
theorem postChats_idempotent (s : Store) (body : ChatBody) (t1 t2 : Nat) :
    (postChats (postChats s body t1).2 body t2).1 = (postChats s body t1).1 ∧
    (postChats (postChats s body t1).2 body t2).2 = (postChats s body t1).2 := by
  have h : postChats (postChats s body t1).2 body t2 = postChats s body t1 := by
    unfold postChats
    cases ha : parseInt body.userAId <;> cases hb : parseInt body.userBId <;> simp only [ha, hb]
    cases hi : itemArg body.itemId <;> simp only [hi]
    · exact findOrCreateChat_stable s _ _ _ _ none t1 t2 rfl Iff.rfl
    · exact findOrCreateChatNull_stable s _ _ _ _ t1 t2 rfl Iff.rfl
    · exact findOrCreateChat_stable s _ _ _ _ (some _) t1 t2 rfl Iff.rfl
  rw [h]
  exact ⟨rfl, rfl⟩

/-- C3. Uniqueness invariant of the chat store: in every store reached from a
store without chats by a sequence of `POST /api/chats` and `POST /api/messages`
requests handled one after the other, no two chat rows have the same
unordered pair of participants and the same subject item (an absent item
being a value of its own). -/
theorem chat_store_unique (users items : List Int) (reqs : List Request) :
    (run (Store.init users items) reqs).chats.Pairwise
      fun c d => ¬ (c.pair = d.pair ∧ c.itemId = d.itemId) :=
  run_uniqueChats reqs _ (by simp [Store.uniqueChats, Store.init])

/-- C4, evaluated at a failing input. Users 1 and 2, item 42, no chat. The
request (1, 2, 42) creates chat 1; the request (1, 2, no item) that follows
returns that same chat 1, because the `undefined` item puts no condition on
the lookup. In the other order the two requests return chats 1 and 2. -/
theorem postChats_absent_item_finds_item_chat :
    (postChats (Store.init [1, 2] [42]) ⟨.num 1, .num 2, .num 42⟩ 10).1
      = .json { id := 1, userAId := 1, userBId := 2, itemId := some 42, updatedAt := 10 } ∧
    (postChats (postChats (Store.init [1, 2] [42]) ⟨.num 1, .num 2, .num 42⟩ 10).2
        ⟨.num 1, .num 2, .undefined⟩ 20).1
      = .json { id := 1, userAId := 1, userBId := 2, itemId := some 42, updatedAt := 10 } ∧
    (postChats (Store.init [1, 2] [42]) ⟨.num 1, .num 2, .undefined⟩ 10).1
      = .json { id := 1, userAId := 1, userBId := 2, itemId := none, updatedAt := 10 } ∧
    (postChats (postChats (Store.init [1, 2] [42]) ⟨.num 1, .num 2, .undefined⟩ 10).2
        ⟨.num 1, .num 2, .num 42⟩ 20).1
      = .json { id := 2, userAId := 1, userBId := 2, itemId := some 42, updatedAt := 20 } := by
  decide

/-- C5, evaluated at a failing input. Users 1 and 2, no chat. The endpoint
accepts the request (1, 1, no item) and creates chat 1 between user 1 and
user 1; the request (1, 2, no item) that follows returns that chat, whose
participant set is not the set of 1 and 2. -/
theorem postChats_returns_self_chat :
    (postChats (Store.init [1, 2] []) ⟨.num 1, .num 1, .undefined⟩ 10).1
      = .json { id := 1, userAId := 1, userBId := 1, itemId := none, updatedAt := 10 } ∧
    (postChats (postChats (Store.init [1, 2] []) ⟨.num 1, .num 1, .undefined⟩ 10).2
        ⟨.num 1, .num 2, .undefined⟩ 20).1
      = .json { id := 1, userAId := 1, userBId := 1, itemId := none, updatedAt := 10 } ∧
    Chat.pair { id := 1, userAId := 1, userBId := 1, itemId := none, updatedAt := 10 }
      ≠ ({1, 2} : Finset Int) := by
  decide

/-- Counterexample to C6 as stated. The string `12abc` is not the decimal
representation of an integer, yet the request with that `userAId` is not
answered with status 400: a chat between users 12 and 2 is created and
returned, and the store changes. -/
theorem postChats_accepts_numeric_start :
    specWellFormedId (.str "12abc") = false ∧
    (postChats (Store.init [12, 2] []) ⟨.str "12abc", .num 2, .undefined⟩ 10).1
      = .json { id := 1, userAId := 12, userBId := 2, itemId := none, updatedAt := 10 } ∧
    (postChats (Store.init [12, 2] []) ⟨.str "12abc", .num 2, .undefined⟩ 10).2
      ≠ Store.init [12, 2] [] := by
  decide

/-- C6, amended. `POST /api/chats` answers with status 400 and
`Invalid user IDs` exactly when `parseInt` of `userAId` or of `userBId` is
`NaN`, and in that case the store is unchanged; a missing, `null` or Boolean
field is such a value. -/
theorem postChats_invalid_ids (s : Store) (body : ChatBody) (now : Nat) :
    ((postChats s body now).1 = .error 400 "Invalid user IDs" ↔
      (isNaN (parseInt body.userAId) = true ∨ isNaN (parseInt body.userBId) = true)) ∧
    ((isNaN (parseInt body.userAId) = true ∨ isNaN (parseInt body.userBId) = true) →
      (postChats s body now).2 = s) ∧
    isNaN (parseInt .undefined) = true ∧ isNaN (parseInt .null) = true ∧
    (∀ b, isNaN (parseInt (.bool b)) = true) := by
  refine ⟨?_, ?_, by decide, by decide, by decide⟩
  · unfold postChats
    cases ha : parseInt body.userAId <;> cases hb : parseInt body.userBId <;>
      simp only [isNaN, Option.isNone_none, Option.isNone_some, or_self, or_true, true_or,
        iff_true, Bool.false_eq_true, iff_false]
    cases hi : itemArg body.itemId <;> simp only [hi]
    · exact findOrCreateChat_status s _ _ none now
    · exact findOrCreateChatNull_status s _ _ now
    · exact findOrCreateChat_status s _ _ (some _) now
  · intro h
    unfold postChats
    cases ha : parseInt body.userAId <;> cases hb : parseInt body.userBId <;>
      simp only [ha, hb, isNaN, Option.isNone_some, Bool.false_eq_true, or_self] at h ⊢

/-- Witness of C6: the request whose `userAId` is the string `abc`. -/
theorem postChats_invalid_ids_witness :
    isNaN (parseInt (.str "abc")) = true ∧
    (postChats sampleStore ⟨.str "abc", .num 2, .num 42⟩ 10).2 = sampleStore :=
  ⟨by decide,
    (postChats_invalid_ids sampleStore ⟨.str "abc", .num 2, .num 42⟩ 10).2.1
      (Or.inl (by decide))⟩

/-- C7. For every store, every existing conversation `c`, every existing
sender and every content, when `POST /api/messages` is handled at a time not
earlier than the creation time of any message already in `c`, it returns the
created message, and `GET /api/chats/messages/c` then returns a non-empty list
whose last element is that message. -/
theorem postMessages_then_listed (s : Store) (c u : Int) (content : String) (tMsg tUpd : Nat)
    (p : String) (hc : ∃ x ∈ s.chats, x.id = c) (hu : u ∈ s.users)
    (hp : parseInt (.str p) = some c)
    (ht : ∀ x ∈ s.messages, x.chatId = c → x.createdAt ≤ tMsg) :
    ∃ m s' l, postMessages s ⟨.num c, .num u, .str content⟩ tMsg tUpd = (.json m, s') ∧
      getChatMessages s' p = .json l ∧ l.getLast? = some m := by
  refine ⟨newMessage s c u content tMsg, afterSend s (newMessage s c u content tMsg) tUpd,
    messagesOfChat s c ++ [newMessage s c u content tMsg],
    postMessages_ok s c u content tMsg tUpd hc hu, ?_, by simp⟩
  simp only [getChatMessages, hp, messagesOfChat_afterSend s c u content tMsg tUpd ht]


/-- Witness of C7: a second message in chat 1 of the sample store, written at
the creation time of the first. -/
theorem postMessages_then_listed_witness :
    ∃ m s' l, postMessages sampleStore ⟨.num 1, .num 2, .str "hi"⟩ 15 16 = (.json m, s') ∧
      getChatMessages s' "1" = .json l ∧ l.getLast? = some m :=
  postMessages_then_listed sampleStore 1 2 "hi" 15 16 "1" (by decide) (by decide) (by decide)
    (by decide)

/-- C8. Sending moves the conversation to the top: for every store, every
stored conversation `x` and every existing sender, when `POST /api/messages`
for `x` is handled and its `new Date()` is later than the `updatedAt` of every
other conversation, the answers of `GET /api/chats/A` and `GET /api/chats/B`
for the two participants of `x` both start with conversation `x`. -/
theorem postMessages_moves_chat_first (s : Store) (x : Chat) (u : Int) (content : String) (tMsg tUpd : Nat)
    (pA pB : String) (hx : x ∈ s.chats) (hu : u ∈ s.users)
    (hpA : parseInt (.str pA) = some x.userAId) (hpB : parseInt (.str pB) = some x.userBId)
    (ht : ∀ y ∈ s.chats, y.id ≠ x.id → y.updatedAt < tUpd) :
    ∃ m s', postMessages s ⟨.num x.id, .num u, .str content⟩ tMsg tUpd = (.json m, s') ∧
      (∃ h tl, getChats s' pA = .json (h :: tl) ∧ h.chat.id = x.id ∧ h.chat.updatedAt = tUpd) ∧
      (∃ h tl, getChats s' pB = .json (h :: tl) ∧ h.chat.id = x.id ∧ h.chat.updatedAt = tUpd) := by
  refine ⟨newMessage s x.id u content tMsg, afterSend s (newMessage s x.id u content tMsg) tUpd,
    postMessages_ok s x.id u content tMsg tUpd ⟨x, hx, rfl⟩ hu, ?_, ?_⟩
  · obtain ⟨h, tl, h1, h2⟩ :=
      chatsOfUser_head s x x.userAId (newMessage s x.id u content tMsg) tUpd hx rfl (Or.inl rfl) ht
    exact ⟨h, tl, by simp only [getChats, hpA, h1], h2⟩
  · obtain ⟨h, tl, h1, h2⟩ :=
      chatsOfUser_head s x x.userBId (newMessage s x.id u content tMsg) tUpd hx rfl (Or.inr rfl) ht
    exact ⟨h, tl, by simp only [getChats, hpB, h1], h2⟩


/-- Witness of C8: user 2 writes in chat 1 of the sample store. -/
theorem postMessages_moves_chat_first_witness :
    ∃ m s', postMessages sampleStore ⟨.num 1, .num 2, .str "hi"⟩ 20 21 = (.json m, s') ∧
      (∃ h tl, getChats s' "1" = .json (h :: tl) ∧ h.chat.id = 1 ∧ h.chat.updatedAt = 21) ∧
      (∃ h tl, getChats s' "2" = .json (h :: tl) ∧ h.chat.id = 1 ∧ h.chat.updatedAt = 21) :=
  postMessages_moves_chat_first sampleStore
    { id := 1, userAId := 1, userBId := 2, itemId := some 42, updatedAt := 15 } 2 "hi" 20 21
    "1" "2" (by decide) (by decide) (by decide) (by decide) (by decide)

/-- C9. For every store and every conversation id `c`,
`GET /api/chats/messages/c` returns the stored messages whose `chatId` is `c`,
each as often as it is stored, in non-decreasing `createdAt` order. -/
theorem getChatMessages_exact_sorted (s : Store) (p : String) (c : Int) (hp : parseInt (.str p) = some c) :
    ∃ l, getChatMessages s p = .json l ∧
      l.Perm (s.messages.filter fun m => m.chatId == c) ∧
      l.Sorted fun m n => m.createdAt ≤ n.createdAt :=
  ⟨messagesOfChat s c, by simp only [getChatMessages, hp], messagesOfChat_perm s c,
    messagesOfChat_sorted s c⟩


/-- Witness of C9: the messages of chat 1 of the sample store. -/
theorem getChatMessages_exact_sorted_witness :
    ∃ l, getChatMessages sampleStore "1" = .json l ∧
      l.Perm (sampleStore.messages.filter fun m => m.chatId == 1) ∧
      l.Sorted fun m n => m.createdAt ≤ n.createdAt :=
  getChatMessages_exact_sorted sampleStore "1" 1 (by decide)

/-- C10. For every store and every user id `u`, `GET /api/chats/u` returns
the stored conversations in which `u` is `userAId` or `userBId`, each as often
as it is stored, in non-increasing `updatedAt` order. -/
theorem getChats_exact_sorted (s : Store) (p : String) (u : Int) (hp : parseInt (.str p) = some u) :
    ∃ l, getChats s p = .json l ∧
      (l.map fun x => x.chat).Perm
        (s.chats.filter fun c => decide (c.userAId = u ∨ c.userBId = u)) ∧
      l.Sorted fun x y => y.chat.updatedAt ≤ x.chat.updatedAt := by
  refine ⟨chatsOfUser s u, by simp only [getChats, hp], ?_, ?_⟩
  · have : (chatsOfUser s u).map (fun x => x.chat)
        = (s.chats.filter fun c => c.userAId == u || c.userBId == u).insertionSort
            fun c d => d.updatedAt ≤ c.updatedAt := by
      simp [chatsOfUser, List.map_map, Function.comp_def]
    rw [this]
    have hf : (s.chats.filter fun c => decide (c.userAId = u ∨ c.userBId = u))
        = s.chats.filter fun c => c.userAId == u || c.userBId == u := by
      congr 1
      funext c
      by_cases h1 : c.userAId = u <;> by_cases h2 : c.userBId = u <;> simp [h1, h2]
    rw [hf]
    exact List.perm_insertionSort _ _
  · simp only [chatsOfUser, List.Sorted, List.pairwise_map]
    exact List.sorted_insertionSort (fun c d : Chat => d.updatedAt ≤ c.updatedAt) _

/-- Witness of C10: the conversations of user 1 of the sample store. -/
theorem getChats_exact_sorted_witness :
    ∃ l, getChats sampleStore "1" = .json l ∧
      (l.map fun x => x.chat).Perm
        (sampleStore.chats.filter fun c => decide (c.userAId = 1 ∨ c.userBId = 1)) ∧
      l.Sorted fun x y => y.chat.updatedAt ≤ x.chat.updatedAt :=
  getChats_exact_sorted sampleStore "1" 1 (by decide)

/-- Counterexample to C11 as stated. In the sample store no conversation has a
message later than its `updatedAt`; while `POST /api/messages` for chat 1 runs
at time 20, the store between its two writes holds the new message created at
20 in a conversation whose `updatedAt` is still 15. -/
theorem postMessages_stale_between_writes :
    sampleStore.upToDate = true ∧
    (postMessagesStates sampleStore ⟨.num 1, .num 2, .str "hi"⟩ 20 21).any
      (fun s => !s.upToDate) = true := by
  decide

/-- C11, amended. `POST /api/messages` makes two writes one after the other.
A call that answers with an error leaves the store unchanged. A call that
answers with the message has stored it with the time of the first write, and
every conversation with its `chatId` (there is one) has `updatedAt` equal to
the time of the second write; if before the call no conversation had a
message later than its `updatedAt` and the clock did not run backwards, the
same holds after the call. Nothing is said of the store between the writes. -/
theorem postMessages_two_writes (s : Store) (body : MessageBody) (tMsg tUpd : Nat) :
    (∀ st e, (postMessages s body tMsg tUpd).1 = .error st e →
      (postMessages s body tMsg tUpd).2 = s) ∧
    (∀ m, (postMessages s body tMsg tUpd).1 = .json m →
      m ∈ (postMessages s body tMsg tUpd).2.messages ∧ m.createdAt = tMsg ∧
      (∃ c ∈ (postMessages s body tMsg tUpd).2.chats, c.id = m.chatId) ∧
      (∀ c ∈ (postMessages s body tMsg tUpd).2.chats, c.id = m.chatId → c.updatedAt = tUpd) ∧
      (s.upToDate = true → tMsg ≤ tUpd →
        (∀ x ∈ s.chats, x.id = m.chatId → x.updatedAt ≤ tUpd) →
        (postMessages s body tMsg tUpd).2.upToDate = true)) := by
  rcases postMessages_cases s body tMsg tUpd with h | ⟨c, u, content, hb, ⟨x, hx, hxc⟩, hu, h⟩
  · rw [h]
    exact ⟨fun _ _ _ => rfl, fun m hm => absurd hm (by simp)⟩
  · rw [h]
    refine ⟨fun st e he => absurd he (by simp), fun m hm => ?_⟩
    simp only [Response.json.injEq] at hm
    subst hm
    refine ⟨by simp [afterSend, withMessage], rfl, ?_, ?_, ?_⟩
    · subst hxc
      exact ⟨{ x with updatedAt := tUpd }, touched_mem_touchedChats tUpd hx, rfl⟩
    · intro y hy hid
      rcases mem_touchedChats hy with hh | hh
      · exact hh.2
      · exact absurd hid hh.1
    · intro hs ht hmono
      exact afterSend_upToDate s c u content tMsg tUpd hs ht hmono

/-- Witness of C11: a message sent to chat 1 of the sample store at times 20
and 21. -/
theorem postMessages_two_writes_witness :
    (postMessages sampleStore ⟨.num 1, .num 2, .str "hi"⟩ 20 21).2.upToDate = true :=
  ((postMessages_two_writes sampleStore ⟨.num 1, .num 2, .str "hi"⟩ 20 21).2
    (newMessage sampleStore 1 2 "hi" 20) (by decide)).2.2.2.2 (by decide) (by decide) (by decide)

/-- C12, evaluated at a failing input. Users 1 and 2, no chat, two requests
for the pair without item. When both `findFirst` calls are answered before
either `create` runs, each handler creates a row: the store holds two
conversations of the same pair and the two handlers return different ones.
When the first handler finishes before the second starts, one row is stored
and both return it. -/
theorem postChats_race_two_rows :
    runTwo (Store.init [1, 2] []) (.lookup 1 2 none 10) (.lookup 2 1 none 11)
        [false, true, false, true]
      = (.answered (.json { id := 1, userAId := 1, userBId := 2, itemId := none, updatedAt := 10 }),
         .answered (.json { id := 2, userAId := 2, userBId := 1, itemId := none, updatedAt := 11 }),
         { users := [1, 2], items := [],
           chats := [{ id := 1, userAId := 1, userBId := 2, itemId := none, updatedAt := 10 },
                     { id := 2, userAId := 2, userBId := 1, itemId := none, updatedAt := 11 }],
           messages := [], nextChatId := 3, nextMessageId := 1 }) ∧
    runTwo (Store.init [1, 2] []) (.lookup 1 2 none 10) (.lookup 2 1 none 11)
        [false, false, true, true]
      = (.answered (.json { id := 1, userAId := 1, userBId := 2, itemId := none, updatedAt := 10 }),
         .answered (.json { id := 1, userAId := 1, userBId := 2, itemId := none, updatedAt := 10 }),
         { users := [1, 2], items := [],
           chats := [{ id := 1, userAId := 1, userBId := 2, itemId := none, updatedAt := 10 }],
           messages := [], nextChatId := 2, nextMessageId := 1 }) := by
  decide

/-- C13. Existing rows are never edited or deleted. `POST /api/chats` leaves
messages, users and items as they are and adds at most one row at the end of
the chat table. `POST /api/messages` either leaves the store unchanged or
answers with a message `m` and changes the store in exactly this: `m` is added
at the end of the message table (with the counter of message ids advanced),
and the rows of the chat table keep their place, id, participants and item,
the rows of chat `m.chatId` get the new `updatedAt` and every other row is
unchanged. The two `GET` handlers return an answer only and have no access to
change the store. -/
theorem requests_keep_rows (s : Store) :
    (∀ body now,
      (postChats s body now).2.messages = s.messages ∧
      (postChats s body now).2.users = s.users ∧
      (postChats s body now).2.items = s.items ∧
      ∃ l, (postChats s body now).2.chats = s.chats ++ l ∧ l.length ≤ 1) ∧
    (∀ body tMsg tUpd,
      (postMessages s body tMsg tUpd).2 = s ∨
      ∃ m, (postMessages s body tMsg tUpd).1 = .json m ∧
        (postMessages s body tMsg tUpd).2
          = { s with messages := s.messages ++ [m], nextMessageId := s.nextMessageId + 1,
                     chats := touchedChats s.chats m.chatId tUpd } ∧
        List.Forall₂
          (fun x y => y.id = x.id ∧ y.userAId = x.userAId ∧ y.userBId = x.userBId ∧
            y.itemId = x.itemId ∧ (x.id ≠ m.chatId → y = x) ∧
            (x.id = m.chatId → y.updatedAt = tUpd))
          s.chats (postMessages s body tMsg tUpd).2.chats) := by
  refine ⟨fun body now => postChats_frame s body now, fun body tMsg tUpd => ?_⟩
  rcases postMessages_cases s body tMsg tUpd with h | ⟨c, u, content, _, _, _, h⟩
  · exact Or.inl (by rw [h])
  · refine Or.inr ⟨newMessage s c u content tMsg, by rw [h], by rw [h]; rfl, ?_⟩
    rw [h]
    exact touchedChats_frame s.chats c tUpd
/-- C14. For every conversation summary in the answer of `GET /api/chats/u`,
the included `messages` list has at most one element; it is empty exactly when
no stored message belongs to the conversation, and otherwise its element is a
stored message of the conversation with the greatest `createdAt`; the text
that `loadUserChats` shows is the content of that message, or
`Inicio del chat` when the list is empty. -/
theorem getChats_last_message (s : Store) (p : String) (u : Int) (hp : parseInt (.str p) = some u) :
    ∃ l, getChats s p = .json l ∧ ∀ x ∈ l,
      x.messages.length ≤ 1 ∧
      (x.messages = [] ↔ ∀ m ∈ s.messages, m.chatId ≠ x.chat.id) ∧
      (∀ m ∈ x.messages, m ∈ s.messages ∧ m.chatId = x.chat.id ∧
        ∀ n ∈ s.messages, n.chatId = x.chat.id → n.createdAt ≤ m.createdAt) ∧
      (x.messages = [] → lastMsg x = "Inicio del chat") ∧
      (∀ m ∈ x.messages, lastMsg x = m.content) := by
  refine ⟨chatsOfUser s u, by simp only [getChats, hp], fun x hx => ?_⟩
  simp only [chatsOfUser, List.mem_map] at hx
  obtain ⟨c, _, rfl⟩ := hx
  obtain ⟨h1, h2, h3⟩ := lastMessages_spec s c.id
  refine ⟨h1, h2, h3, fun hnil => ?_, fun m hm => ?_⟩
  · simp only at hnil
    simp [lastMsg, hnil]
  · simp only at hm h1
    cases hl : lastMessages s c.id with
    | nil => rw [hl] at hm; exact absurd hm (List.not_mem_nil _)
    | cons a tl =>
      rw [hl] at hm h1
      have htl : tl = [] := by
        cases tl with
        | nil => rfl
        | cons b tl' => simp at h1
      subst htl
      simp only [List.mem_singleton] at hm
      subst hm
      simp [lastMsg, hl]

/-- Witness of C14: the conversations of user 1 of the sample store. -/
theorem getChats_last_message_witness :
    ∃ l, getChats sampleStore "1" = .json l ∧ ∀ x ∈ l,
      x.messages.length ≤ 1 ∧
      (x.messages = [] ↔ ∀ m ∈ sampleStore.messages, m.chatId ≠ x.chat.id) ∧
      (∀ m ∈ x.messages, m ∈ sampleStore.messages ∧ m.chatId = x.chat.id ∧
        ∀ n ∈ sampleStore.messages, n.chatId = x.chat.id → n.createdAt ≤ m.createdAt) ∧
      (x.messages = [] → lastMsg x = "Inicio del chat") ∧
      (∀ m ∈ x.messages, lastMsg x = m.content) :=
  getChats_last_message sampleStore "1" 1 (by decide)

/-- C15. Single-poller invariant of the client: in every state reached from
the initial state (guest or saved session) by any sequence of `openChat`
calls, `closeModal` calls, timer callbacks, replies to message-history
requests and `triggerTrade` calls and replies, at most one interval timer is
active, and `state.chatPollInterval` holds the handle of every active timer. -/
theorem client_one_poller (user : Option JsVal) (events : List Event) :
    ((Client.init user).run events).timers.length ≤ 1 ∧
    ∀ t ∈ ((Client.init user).run events).timers,
      ((Client.init user).run events).chatPollInterval = some t.handle := by
  have h := run_onePoller events (Client.init user)
    ⟨by simp [Client.init], by simp [Client.init], by simp [Client.init], by simp [Client.init]⟩
  exact ⟨h.2.2.1, h.2.2.2⟩

/-- C16, evaluated at a failing input. A logged-in user opens conversation 5:
timer 1 polls it. The user then closes the chat view with
`closeModal('chat-modal')` as `window` exposes it once the script has run:
timer 1 is still active, `state.chatPollInterval` is still 1 and
`state.currentChatId` is still 5, and the next tick of the timer sends a
further message-history request. The wrapper of lines 498 to 505, had it been
the exposed function with the declaration `closeModal` as its original, would
have cleared the timer and reset both fields. -/
theorem windowCloseModal_keeps_polling :
    (openChat (Client.init (some (.num 1))) (.num 5)).timers
      = [{ handle := 1, chatId := .num 5, period := 1000 }] ∧
    (windowCloseModal (openChat (Client.init (some (.num 1))) (.num 5)) "chat-modal").timers
      = [{ handle := 1, chatId := .num 5, period := 1000 }] ∧
    (windowCloseModal (openChat (Client.init (some (.num 1))) (.num 5)) "chat-modal").chatPollInterval
      = some 1 ∧
    (windowCloseModal (openChat (Client.init (some (.num 1))) (.num 5)) "chat-modal").currentChatId
      = .num 5 ∧
    (tick (windowCloseModal (openChat (Client.init (some (.num 1))) (.num 5)) "chat-modal")
        { handle := 1, chatId := .num 5, period := 1000 }).fetches
      = [.num 5, .num 5] ∧
    (hookedCloseModal (some closeModal) (openChat (Client.init (some (.num 1))) (.num 5))
        "chat-modal").map (fun st => (st.timers, st.chatPollInterval, st.currentChatId))
      = some ([], none, .null) := by
  decide

/-- C17, evaluated at a failing input. A logged-in user opens conversation 5
and then conversation 6 while the request for the messages of 5 is in flight
(the requests in flight are those of 5 and of 6). When the reply for
conversation 5 arrives, `state.currentChatId` is 6 and the messages of
conversation 5 are rendered. -/
theorem historyDone_renders_stale :
    (Client.run (Client.init (some (.num 1)))
      [.openChat (.num 5), .openChat (.num 6),
       .historyDone 0 (.messages [{ id := 9, chatId := 5, senderId := 2, content := "de la 5",
                                    createdAt := 3 }])]).currentChatId = .num 6 ∧
    (Client.run (Client.init (some (.num 1)))
      [.openChat (.num 5), .openChat (.num 6)]).fetches = [.num 5, .num 6] ∧
    (Client.run (Client.init (some (.num 1)))
      [.openChat (.num 5), .openChat (.num 6),
       .historyDone 0 (.messages [{ id := 9, chatId := 5, senderId := 2, content := "de la 5",
                                    createdAt := 3 }])]).rendered
      = [{ mine := false, kind := .text, content := "de la 5", createdAt := 3 }] := by
  decide

/-- C18. Transition Closed to Open: for every conversation that a store
reached by a sequence of requests holds and every client state, `openChat`
with the id of the conversation sets `state.currentChatId` to that id, sends
exactly one message-history request for it at once, and leaves
`state.chatPollInterval` with the handle of an active timer of period 1000
whose every tick sends one more request for that conversation while it is
the current one, and none when it is not. -/
theorem openChat_polls_conversation (users items : List Int) (reqs : List Request) (chat : Chat)
    (hchat : chat ∈ (run (Store.init users items) reqs).chats) (st : Client) :
    (openChat st (.num chat.id)).currentChatId = .num chat.id ∧
    (openChat st (.num chat.id)).fetches = st.fetches ++ [.num chat.id] ∧
    ∃ t, t ∈ (openChat st (.num chat.id)).timers ∧ t.chatId = .num chat.id ∧ t.period = 1000 ∧
      (openChat st (.num chat.id)).chatPollInterval = some t.handle ∧
      (∀ st', t ∈ st'.timers → st'.currentChatId = .num chat.id →
        (tick st' t).fetches = st'.fetches ++ [.num chat.id]) ∧
      (∀ st', st'.currentChatId ≠ .num chat.id → (tick st' t).fetches = st'.fetches) := by
  have hpos := (run_positiveIds reqs (Store.init users items)
    ⟨by simp [Store.init], by simp [Store.init]⟩).2 chat hchat
  have htruthy : (JsVal.num chat.id).truthy = true := by
    simp only [JsVal.truthy, bne_iff_ne, ne_eq]
    omega
  exact openChat_polls st (.num chat.id) htruthy

/-- Witness of C18: the conversation that the first request creates, opened
from the initial state of a saved session. -/
theorem openChat_polls_conversation_witness :
    (openChat (Client.init (some (.num 1))) (.num 1)).currentChatId = .num 1 ∧
    (openChat (Client.init (some (.num 1))) (.num 1)).fetches
      = (Client.init (some (.num 1))).fetches ++ [.num 1] :=
  ⟨(openChat_polls_conversation [1, 2] [] [.chats ⟨.num 1, .num 2, .undefined⟩ 10]
      { id := 1, userAId := 1, userBId := 2, itemId := none, updatedAt := 10 } (by decide)
      (Client.init (some (.num 1)))).1,
   (openChat_polls_conversation [1, 2] [] [.chats ⟨.num 1, .num 2, .undefined⟩ 10]
      { id := 1, userAId := 1, userBId := 2, itemId := none, updatedAt := 10 } (by decide)
      (Client.init (some (.num 1)))).2.1⟩

/-- C19. The classification of a content by `renderMessages` is a function of
the content alone with three outcomes: image link exactly when the content
starts with `http` and contains a dot, one of `jpg`, `jpeg`, `png`, `gif`,
`webp` in any letter case, and then the end of the content or `?`; generic
link exactly when it starts with `http` and is not an image link; plain text
exactly when it does not start with `http`. -/
theorem contentKind_spec (content : String) :
    (contentKind content = .image ↔ specImageLink content.toList) ∧
    (contentKind content = .link ↔
      startsWith content.toList "http".toList = true ∧ ¬ specImageLink content.toList) ∧
    (contentKind content = .text ↔ startsWith content.toList "http".toList = false) := by
  simp only [specImageLink, ← isImageUrl_iff, contentKind]
  cases h1 : startsWith content.toList "http".toList <;>
    cases h2 : isImageUrl content.toList <;> simp

/-- C20, evaluated at a failing input. A logged-in user 1 has conversation 5
open with timer 1 and offers a trade on item 42 of user 2; the request is
sent. When the server answers with status 500 no notification is shown,
`state.currentChatId` becomes `undefined`, timer 1 is replaced by a new timer 2
and `state.chatPollInterval` becomes 2; with the chat view closed before the
answer (here with status 400), the answer opens the chat view. -/
theorem triggerTradeDone_error_opens_chat :
    (triggerTrade (openChat (Client.init (some (.num 1))) (.num 5)) (.num 42) (.num 2))
      = (openChat (Client.init (some (.num 1))) (.num 5),
         some { userAId := .num 1, userBId := .num 2, itemId := .num 42 }) ∧
    (openChat (Client.init (some (.num 1))) (.num 5)).currentChatId = .num 5 ∧
    (openChat (Client.init (some (.num 1))) (.num 5)).chatPollInterval = some 1 ∧
    (triggerTradeDone (openChat (Client.init (some (.num 1))) (.num 5))
        (.answer (.error 500 "Error creating/getting chat"))).toasts = [] ∧
    (triggerTradeDone (openChat (Client.init (some (.num 1))) (.num 5))
        (.answer (.error 500 "Error creating/getting chat"))).currentChatId = .undefined ∧
    (triggerTradeDone (openChat (Client.init (some (.num 1))) (.num 5))
        (.answer (.error 500 "Error creating/getting chat"))).chatPollInterval = some 2 ∧
    (triggerTradeDone (openChat (Client.init (some (.num 1))) (.num 5))
        (.answer (.error 500 "Error creating/getting chat"))).timers
      = [{ handle := 2, chatId := .undefined, period := 1000 }] ∧
    (triggerTradeDone (closeModal (openChat (Client.init (some (.num 1))) (.num 5)) "chat-modal")
        (.answer (.error 400 "Invalid user IDs"))).openModals = ["chat-modal"] := by
  decide

/-- C21. `POST /api/messages` does not validate the sender: for every store,
every stored conversation `x` and every existing user `u` that is neither
`userAId` nor `userBId` of `x`, the request with chat `x.id` and sender `u`
answers with the created message, whose sender is `u` and whose chat is
`x.id`; the message is stored, and every row of chat `x.id` (there is one) has
`updatedAt` equal to the time of the update. The witness below gives such a
store, conversation and user. -/
theorem postMessages_outsider_accepted (s : Store) (x : Chat) (u : Int) (content : String)
    (tMsg tUpd : Nat) (hx : x ∈ s.chats) (hu : u ∈ s.users)
    (hA : u ≠ x.userAId) (hB : u ≠ x.userBId) :
    ∃ m s', postMessages s ⟨.num x.id, .num u, .str content⟩ tMsg tUpd = (.json m, s') ∧
      m.senderId = u ∧ m.senderId ≠ x.userAId ∧ m.senderId ≠ x.userBId ∧
      m.chatId = x.id ∧ m.content = content ∧ m ∈ s'.messages ∧
      (∃ y ∈ s'.chats, y.id = x.id ∧ y.userAId = x.userAId ∧ y.userBId = x.userBId) ∧
      ∀ y ∈ s'.chats, y.id = x.id → y.updatedAt = tUpd := by
  refine ⟨newMessage s x.id u content tMsg, afterSend s (newMessage s x.id u content tMsg) tUpd,
    postMessages_ok s x.id u content tMsg tUpd ⟨x, hx, rfl⟩ hu, rfl, hA, hB, rfl, rfl, ?_, ?_, ?_⟩
  · simp [afterSend, withMessage]
  · exact ⟨{ x with updatedAt := tUpd }, touched_mem_touchedChats tUpd hx, rfl, rfl, rfl⟩
  · intro y hy hid
    rcases mem_touchedChats hy with hh | hh
    · exact hh.2
    · exact absurd hid hh.1

/-- Witness of C21: in the sample store, chat 1 is between users 1 and 2, and
user 3 sends a message to it. -/
theorem postMessages_outsider_accepted_witness :
    ∃ m s', postMessages sampleStore ⟨.num 1, .num 3, .str "hola"⟩ 20 21 = (.json m, s') ∧
      m.senderId = 3 ∧ m.senderId ≠ 1 ∧ m.senderId ≠ 2 ∧
      m.chatId = 1 ∧ m.content = "hola" ∧ m ∈ s'.messages ∧
      (∃ y ∈ s'.chats, y.id = 1 ∧ y.userAId = 1 ∧ y.userBId = 2) ∧
      ∀ y ∈ s'.chats, y.id = 1 → y.updatedAt = 21 :=
  postMessages_outsider_accepted sampleStore
    { id := 1, userAId := 1, userBId := 2, itemId := some 42, updatedAt := 15 } 3 "hola" 20 21
    (by decide) (by decide) (by decide) (by decide)

end ReTrueque
